import Mathlib

/-!
# The system-call layer of `userprog/syscall.c`

A shallow embedding of the trap handler of `src/userprog/syscall.c` and of the
functions it dispatches to, followed by theorems about the descriptor table,
the address checks and the termination paths.

Conventions of the embedding.

* A user address and a 32-bit machine word are natural numbers; a C `int` is an
  integer, and arithmetic on it is wrapped to 32 bits (`wrap_int`).
* The code outside the file (file system, console, scheduler, page directory)
  is represented by the record `Machine`, which fixes what each of those
  functions answers during one system call, and by the `Event`s that the
  kernel appends to a trace whenever it calls one of them.
* A function of the file maps a kernel state to a `Step`: it returns a value,
  or the thread has left through `thread_exit`, or the machine is powered off,
  or the kernel took a page fault in a load or store of its own.
* `syscall_handler` is the dispatcher on call records whose words are wholly
  mapped; `syscall_handler_faulting` adds the page fault of the 4-byte read of
  a word that has an unmapped byte.
-/

namespace Syscall

/-! ## Machine integers -/

/-- Largest value of a C `int`. -/
def INT_MAX : Int := 2147483647

/-- Smallest value of a C `int`. -/
def INT_MIN : Int := -2147483648

/-- Result of `int` arithmetic on the 32-bit target: the two's complement
representative of `x` in `[INT_MIN, INT_MAX]`. -/
def wrap_int (x : Int) : Int := (x + 2147483648) % 4294967296 - 2147483648

/-- Conversion of an `int` to `uint32_t`. -/
def to_uint32 (x : Int) : Nat := (x % 4294967296).toNat

/-- Conversion of a 32-bit word to `int`. -/
def to_int (w : Nat) : Int := wrap_int (w : Int)

/-! ## The collaborators and the state -/

/-- What the code outside `syscall.c` answers during one system call: the page
directory and the memory of the calling process, the file system, the process
functions and the keyboard. File handles (`struct file *`), thread records and
strings in user memory are represented by their addresses. -/
structure Machine where
  /-- `pagedir_get_page (thread_current ()->pagedir, vaddr) != NULL` -/
  mapped : Nat → Bool
  /-- the 32-bit word stored at a user address -/
  word : Nat → Nat
  /-- `filesys_open (name)`, `none` for `NULL` -/
  filesys_open : Nat → Option Nat
  /-- `filesys_create (name, initial_size)` -/
  filesys_create : Nat → Int → Bool
  /-- `filesys_remove (name)` -/
  filesys_remove : Nat → Bool
  /-- `file_length (file)` -/
  file_length : Nat → Int
  /-- `file_read (file, buffer, size)` -/
  file_read : Nat → Nat → Nat → Int
  /-- `file_write (file, buffer, size)` -/
  file_write : Nat → Nat → Nat → Int
  /-- `process_execute (cmd_line)` -/
  process_execute : Nat → Int
  /-- `get_process_with_specific_tid (pid)`, `none` for `NULL` -/
  get_process_with_specific_tid : Int → Option Nat
  /-- `process_wait (pid)` -/
  process_wait : Int → Int
  /-- the key returned by the `n`-th call of `input_getc ()` -/
  input_getc : Nat → Nat

/-- A call by which `syscall.c` acts on the file system, the console, the
processes or the machine, or a byte it stores into user memory. Lookups
(`thread_current`, `pagedir_get_page`, `get_process_with_specific_tid`) are
answered by the `Machine` and leave no event. -/
inductive Event where
  | shutdown_power_off
  | printf_exit (name : String) (status : Int)
  | thread_exit
  | process_execute (cmd_line : Nat)
  | process_wait (pid : Int)
  | filesys_create (name : Nat) (initial_size : Int)
  | filesys_remove (name : Nat)
  | filesys_open (name : Nat)
  | file_length (file : Nat)
  | file_read (file : Nat) (buffer : Nat) (size : Nat)
  | file_write (file : Nat) (buffer : Nat) (size : Nat)
  | file_seek (file : Nat) (position : Nat)
  | file_close (file : Nat)
  | putbuf (buffer : Nat) (size : Nat)
  | input_getc
  | store_byte (addr : Nat) (byte : Nat)
deriving DecidableEq, Repr

/-- An element of `my_opened_files_list`: a `struct file` with the descriptor
number stored in it. -/
structure OpenFile where
  file : Nat
  fd : Int
deriving DecidableEq, Repr

/-- The fields of `struct thread` that `syscall.c` uses. -/
structure Thread where
  name : String
  my_opened_files_list : List OpenFile
  fd : Int
  children_list : List Nat
  last_child_status : Int
deriving DecidableEq, Repr

/-- The kernel state one system call works on: the running thread
(`thread_current ()`), the record its `parent` pointer refers to, the return
slot `f->eax` of the interrupt frame, and the calls made so far. -/
structure Kernel where
  cur : Thread
  parent : Thread
  eax : Nat
  trace : List Event
deriving DecidableEq, Repr

/-- How a function of `syscall.c` ends: it returns, the thread leaves through
`thread_exit`, the machine is powered off, or an access of the kernel to the
address `addr` page-faults; what follows a fault is decided by the page-fault
handler, which is outside the file. -/
inductive Step (α : Type) where
  | ret (value : α) (k : Kernel)
  | exit (status : Int) (k : Kernel)
  | halt (k : Kernel)
  | fault (addr : Nat) (k : Kernel)
deriving DecidableEq, Repr

/-- The kernel state a step ends in. -/
def Step.kernel {α : Type} : Step α → Kernel
  | .ret _ k => k
  | .exit _ k => k
  | .halt k => k
  | .fault _ k => k

/-- The value a step returns, if it returns. -/
def Step.value {α : Type} : Step α → Option α
  | .ret v _ => some v
  | .exit _ _ => none
  | .halt _ => none
  | .fault _ _ => none

/-- Appends a call to the trace. -/
def Kernel.log (k : Kernel) (e : Event) : Kernel :=
  { k with trace := k.trace ++ [e] }

/-- Assignment of `thread_current ()->my_opened_files_list` and
`thread_current ()->fd`. -/
def Kernel.set_files (k : Kernel) (files : List OpenFile) (fd : Int) : Kernel :=
  { k with cur := { k.cur with my_opened_files_list := files, fd := fd } }

/-! ## Constants of headers that are not part of the file -/

/-- Modelled from the spec: the user/kernel address split, `PHYS_BASE` of
`threads/vaddr.h`; the header is not among the sources, the value is the one
Pintos fixes. -/
def PHYS_BASE : Nat := 0xc0000000

/-- Modelled from the spec: `is_user_vaddr` of `threads/vaddr.h`, an address
below the user/kernel split. -/
def is_user_vaddr (vaddr : Nat) : Bool := decide (vaddr < PHYS_BASE)

/-- Modelled from the spec: the operation codes of `syscall-nr.h`, numbered in
the order of the operation catalog. -/
def SYS_HALT : Int := 0

/-- Modelled from the spec: operation code of `exit`. -/
def SYS_EXIT : Int := 1

/-- Modelled from the spec: operation code of `exec`. -/
def SYS_EXEC : Int := 2

/-- Modelled from the spec: operation code of `wait`. -/
def SYS_WAIT : Int := 3

/-- Modelled from the spec: operation code of `create`. -/
def SYS_CREATE : Int := 4

/-- Modelled from the spec: operation code of `remove`. -/
def SYS_REMOVE : Int := 5

/-- Modelled from the spec: operation code of `open`. -/
def SYS_OPEN : Int := 6

/-- Modelled from the spec: operation code of `filesize`. -/
def SYS_FILESIZE : Int := 7

/-- Modelled from the spec: operation code of `read`. -/
def SYS_READ : Int := 8

/-- Modelled from the spec: operation code of `write`. -/
def SYS_WRITE : Int := 9

/-- Modelled from the spec: operation code of `seek`. -/
def SYS_SEEK : Int := 10

/-- Modelled from the spec: operation code of `tell`. -/
def SYS_TELL : Int := 11

/-- Modelled from the spec: operation code of `close`. -/
def SYS_CLOSE : Int := 12

/-! ## The functions of `syscall.c` -/

/-- The word at a user address, as the 32-bit value the kernel's 4-byte read
returns when the four bytes are mapped. The page fault of the read of a word
with an unmapped byte is not part of `syscall_handler`; it is added by
`syscall_handler_faulting`. -/
def load (m : Machine) (addr : Nat) : Nat := m.word addr % 4294967296

/-- `valid`: the address is below `PHYS_BASE` and registered in the page
directory. -/
def valid (m : Machine) (vaddr : Nat) : Bool :=
  is_user_vaddr vaddr && m.mapped vaddr

/-- `ourExit`: prints the status line, stores the status in the parent record
and calls `thread_exit`, which does not return. -/
def ourExit {α : Type} (status : Int) (k : Kernel) : Step α :=
  .exit status
    { k with
      parent := { k.parent with last_child_status := status }
      trace := k.trace ++ [.printf_exit k.cur.name status, .thread_exit] }

/-- `kill`: exits the process with status -1. -/
def kill {α : Type} (k : Kernel) : Step α := ourExit (-1) k

/-- The loop of `get_file`: walks the list while the element's descriptor is
below `fd`; returns the element it stops at when its descriptor is `fd`,
together with the number of elements whose descriptor was read. -/
def get_file_scan (fd : Int) : List OpenFile → Option OpenFile × Nat
  | [] => (none, 0)
  | file :: rest =>
    if file.fd < fd then
      ((get_file_scan fd rest).1, (get_file_scan fd rest).2 + 1)
    else if file.fd = fd then (some file, 1)
    else (none, 1)

/-- `get_file` with the number of list elements it examined. -/
def get_file_run (fd : Int) (files : List OpenFile) : Option OpenFile × Nat :=
  if fd = 0 ∨ files.isEmpty then (none, 0) else get_file_scan fd files

/-- `get_file`: the open file of the current thread with descriptor `fd`,
`none` for `NULL`. -/
def get_file (fd : Int) (files : List OpenFile) : Option OpenFile :=
  (get_file_run fd files).1

/-- `execute`. -/
def execute (m : Machine) (cmd_line : Nat) (k : Kernel) : Step Int :=
  let pid := m.process_execute cmd_line
  let k1 := k.log (.process_execute cmd_line)
  match m.get_process_with_specific_tid pid with
  | none => .ret (-1) k1
  | some t =>
    .ret pid { k1 with cur := { k1.cur with children_list := k1.cur.children_list ++ [t] } }

/-- `wait`. -/
def wait (m : Machine) (pid : Int) (k : Kernel) : Step Int :=
  .ret (m.process_wait pid) (k.log (.process_wait pid))

/-- `create_file`. -/
def create_file (m : Machine) (curr_name : Nat) (initial_size : Int) (k : Kernel) :
    Step Bool :=
  .ret (m.filesys_create curr_name initial_size)
    (k.log (.filesys_create curr_name initial_size))

/-- `remove_file`. -/
def remove_file (m : Machine) (curr_name : Nat) (k : Kernel) : Step Int :=
  .ret (if m.filesys_remove curr_name then 1 else 0) (k.log (.filesys_remove curr_name))

/-- `open_file`: on success the file is pushed at the back of the list and gets
the incremented counter as its descriptor. -/
def open_file (m : Machine) (curr_name : Nat) (k : Kernel) : Step Int :=
  let k1 := k.log (.filesys_open curr_name)
  match m.filesys_open curr_name with
  | some curr_file =>
    let fd := wrap_int (k1.cur.fd + 1)
    .ret fd (k1.set_files (k1.cur.my_opened_files_list ++ [⟨curr_file, fd⟩]) fd)
  | none => .ret (-1) k1

/-- `write`. -/
def write (m : Machine) (fd : Int) (buffer size : Nat) (k : Kernel) : Step Nat :=
  if fd = 1 then .ret size (k.log (.putbuf buffer size))
  else
    match get_file fd k.cur.my_opened_files_list with
    | some file =>
      .ret (to_uint32 (m.file_write file.file buffer size))
        (k.log (.file_write file.file buffer size))
    | none => .ret 0 k

/-- `read_helper`: `size` times, one key is fetched and stored at `buffer`,
which then advances by one byte; `n` counts the keys fetched before. The store
to an address that is not mapped page-faults, after the key was fetched, and
the loop goes no further; a mapped page is taken to be writable. The result is
the events of the loop and, when a store faulted, its address. -/
def read_helper (m : Machine) (buffer : Nat) : Nat → Nat → List Event × Option Nat
  | 0, _ => ([], none)
  | size + 1, n =>
    if m.mapped buffer then
      ([Event.input_getc, Event.store_byte buffer (m.input_getc n % 256)] ++
          (read_helper m ((buffer + 1) % 4294967296) size (n + 1)).1,
        (read_helper m ((buffer + 1) % 4294967296) size (n + 1)).2)
    else ([Event.input_getc], some buffer)

/-- `read`. -/
def read (m : Machine) (fd : Int) (buffer size : Nat) (k : Kernel) : Step Nat :=
  if fd = 0 then
    match (read_helper m buffer size 0).2 with
    | none => .ret size { k with trace := k.trace ++ (read_helper m buffer size 0).1 }
    | some addr => .fault addr { k with trace := k.trace ++ (read_helper m buffer size 0).1 }
  else
    match get_file fd k.cur.my_opened_files_list with
    | some file =>
      .ret (to_uint32 (m.file_read file.file buffer size))
        (k.log (.file_read file.file buffer size))
    | none => ourExit (-1) k

/-- `filesize`. -/
def filesize (m : Machine) (fd : Int) (k : Kernel) : Step Nat :=
  match get_file fd k.cur.my_opened_files_list with
  | some file => .ret (to_uint32 (m.file_length file.file)) (k.log (.file_length file.file))
  | none => ourExit (-1) k

/-- `seek`. -/
def seek (fd : Int) (position : Nat) (k : Kernel) : Step Unit :=
  match get_file fd k.cur.my_opened_files_list with
  | some file => .ret () (k.log (.file_seek file.file position))
  | none => ourExit (-1) k

/-- `close_file`: the file found is unlinked from the list and closed. -/
def close_file (fd : Int) (k : Kernel) : Step Unit :=
  match get_file fd k.cur.my_opened_files_list with
  | some file =>
    .ret () ((k.set_files (k.cur.my_opened_files_list.erase file) k.cur.fd).log
      (.file_close file.file))
  | none => .ret () k

/-- The assignment `f->eax = ...` of the value a call returned. -/
def set_eax {α : Type} (conv : α → Nat) : Step α → Step Unit
  | .ret v k => .ret () { k with eax := conv v }
  | .exit s k => .exit s k
  | .halt k => .halt k
  | .fault addr k => .fault addr k

/-- `syscall_handler`: `esp` is `f->esp`, the address of the call record. -/
def syscall_handler (m : Machine) (esp : Nat) (k : Kernel) : Step Unit :=
  let p := esp
  if !valid m p then kill k
  else
    let nr := to_int (load m p)
    if nr = SYS_HALT then .halt (k.log .shutdown_power_off)
    else if nr = SYS_EXIT then
      if !valid m (p + 4) then kill k
      else ourExit (to_int (load m (p + 4))) k
    else if nr = SYS_EXEC then
      if !valid m (p + 4) || !valid m (load m (p + 4)) then kill k
      else set_eax to_uint32 (execute m (load m (p + 4)) k)
    else if nr = SYS_WAIT then
      if !valid m (p + 4) then kill k
      else set_eax to_uint32 (wait m (to_int (load m (p + 4))) k)
    else if nr = SYS_CREATE then
      if !valid m (p + 4) || !valid m (p + 8) || !valid m (load m (p + 4)) then kill k
      else if load m (p + 4) = 0 then ourExit (-1) k
      else
        set_eax (fun b => if b then 1 else 0)
          (create_file m (load m (p + 4)) (to_int (load m (p + 8))) k)
    else if nr = SYS_REMOVE then
      if !valid m (p + 4) || !valid m (load m (p + 4)) then kill k
      else if load m (p + 4) = 0 then ourExit (-1) k
      else set_eax to_uint32 (remove_file m (load m (p + 4)) k)
    else if nr = SYS_OPEN then
      if !valid m (p + 4) || !valid m (load m (p + 4)) then kill k
      else if load m (p + 4) = 0 then .ret () { k with eax := to_uint32 (-1) }
      else set_eax to_uint32 (open_file m (load m (p + 4)) k)
    else if nr = SYS_FILESIZE then
      if !valid m (p + 4) then kill k
      else set_eax id (filesize m (to_int (load m (p + 4))) k)
    else if nr = SYS_READ then
      if !valid m (p + 4) || !valid m (p + 8) || !valid m (p + 12) ||
          !valid m (load m (p + 8)) then kill k
      else
        set_eax id (read m (to_int (load m (p + 4))) (load m (p + 8)) (load m (p + 12)) k)
    else if nr = SYS_WRITE then
      if !valid m (p + 4) || !valid m (p + 8) || !valid m (p + 12) ||
          !valid m (load m (p + 8)) then kill k
      else
        set_eax id (write m (to_int (load m (p + 4))) (load m (p + 8)) (load m (p + 12)) k)
    else if nr = SYS_SEEK then
      if !valid m (p + 4) || !valid m (p + 8) then kill k
      else seek (to_int (load m (p + 4))) (load m (p + 8)) k
    else if nr = SYS_TELL then
      if !valid m (p + 4) then kill k
      else .ret () k
    else if nr = SYS_CLOSE then
      if !valid m (p + 4) then kill k
      else close_file (to_int (load m (p + 4))) k
    else kill k

/-! ## Predicates and scenarios used by the theorems -/

/-- The handles of the list are strictly ascending in list order. -/
def ascending (files : List OpenFile) : Prop :=
  files.Pairwise (fun a b => a.fd < b.fd)

instance (files : List OpenFile) : Decidable (ascending files) := by
  unfold ascending; infer_instance

/-- The descriptor-table invariant: the handles are strictly ascending in list
order, every handle is greater than 1, and every handle is at most the
counter. -/
def table_invariant (t : Thread) : Prop :=
  ascending t.my_opened_files_list ∧
    (∀ e ∈ t.my_opened_files_list, 1 < e.fd) ∧
    (∀ e ∈ t.my_opened_files_list, e.fd ≤ t.fd)

instance (t : Thread) : Decidable (table_invariant t) := by
  unfold table_invariant; infer_instance

/-- The process ended with status -1 from state `k`: the step is the one
`ourExit (-1)` makes, it returns no value, the only calls added to the trace
are the status line and `thread_exit`, and the running thread (descriptor
table and counter included) and the return slot are as in `k`. -/
def Killed {α : Type} (s : Step α) (k : Kernel) : Prop :=
  s = ourExit (-1) k ∧ s.value = none ∧
    s.kernel.trace = k.trace ++ [.printf_exit k.cur.name (-1), .thread_exit] ∧
    s.kernel.cur = k.cur ∧ s.kernel.eax = k.eax

/-- A call of `open_file` (with the machine that answers it) or of
`close_file`. -/
inductive FdCall where
  | open_file (m : Machine) (name : Nat)
  | close_file (fd : Int)

/-- Number of `open` calls of the sequence for which the file system yields a
file. -/
def successful_opens : List FdCall → Nat
  | [] => 0
  | .open_file m name :: rest =>
    (if (m.filesys_open name).isSome then 1 else 0) + successful_opens rest
  | .close_file _ :: rest => successful_opens rest

/-- The descriptor numbers returned, in call order, by the successful opens of
a sequence of `open_file` and `close_file` calls run from state `k`. -/
def returned_fds : List FdCall → Kernel → List Int
  | [], _ => []
  | .open_file m name :: rest, k =>
    (if (m.filesys_open name).isSome then (open_file m name k).value.toList else []) ++
      returned_fds rest (open_file m name k).kernel
  | .close_file fd :: rest, k => returned_fds rest (close_file fd k).kernel

/-- A machine for the examples: the user page `[0x1000, 0x2000)` is mapped, the
call record at `0x1000` holds the four given words, the file system opens the
name at `0x1100` as file 77, the name at `0x1200` as file 78 and no other
name, and the keyboard delivers the letters from `A` on. -/
def sample_machine (w0 w1 w2 w3 : Nat) : Machine where
  mapped := fun a => decide (0x1000 ≤ a ∧ a < 0x2000)
  word := fun a =>
    if a = 0x1000 then w0 else if a = 0x1004 then w1
    else if a = 0x1008 then w2 else if a = 0x100c then w3 else 0
  filesys_open := fun name =>
    if name = 0x1100 then some 77 else if name = 0x1200 then some 78 else none
  filesys_create := fun _ _ => true
  filesys_remove := fun _ => true
  file_length := fun _ => 5
  file_read := fun _ _ size => size
  file_write := fun _ _ size => size
  process_execute := fun _ => 4
  get_process_with_specific_tid := fun _ => some 9
  process_wait := fun _ => 0
  input_getc := fun n => 65 + n

/-- The scenario open, open, close of the first descriptor, open; every open
succeeds. -/
def open_open_close_open : List FdCall :=
  [.open_file (sample_machine 6 0x1100 0 0) 0x1100,
    .open_file (sample_machine 6 0x1200 0 0) 0x1200, .close_file 3,
    .open_file (sample_machine 6 0x1100 0 0) 0x1100]

/-- Modelled from the spec: the state of a fresh process, an empty descriptor
table and the counter at 2 (the thread is set up outside `syscall.c`). -/
def fresh_thread (name : String) : Thread := ⟨name, [], 2, [], 0⟩

/-- A kernel state for the examples: a fresh process `main` with a parent `init`. -/
def sample_kernel : Kernel := ⟨fresh_thread "main", fresh_thread "init", 0, []⟩

/-- An operation of the catalog of the specification: its code, the number of
argument words in its call record, and the position of its pointer-typed
argument when it has one. -/
structure Operation where
  nr : Int
  argc : Nat
  pointer_arg : Option Nat
deriving DecidableEq, Repr

/-- The operation catalog of the specification: halt; exit (status); exec
(cmdline); wait (pid); create (name, size); remove (name); open (name);
filesize (fd); read (fd, buffer, size); write (fd, buffer, size); seek (fd,
position); tell (fd); close (fd). -/
def catalog : List Operation :=
  [⟨SYS_HALT, 0, none⟩, ⟨SYS_EXIT, 1, none⟩, ⟨SYS_EXEC, 1, some 1⟩, ⟨SYS_WAIT, 1, none⟩,
    ⟨SYS_CREATE, 2, some 1⟩, ⟨SYS_REMOVE, 1, some 1⟩, ⟨SYS_OPEN, 1, some 1⟩,
    ⟨SYS_FILESIZE, 1, none⟩, ⟨SYS_READ, 3, some 2⟩, ⟨SYS_WRITE, 3, some 2⟩,
    ⟨SYS_SEEK, 2, none⟩, ⟨SYS_TELL, 1, none⟩, ⟨SYS_CLOSE, 1, none⟩]

/-- The address is at or above the user/kernel split or unmapped. -/
def inaccessible (m : Machine) (addr : Nat) : Prop :=
  PHYS_BASE ≤ addr ∨ m.mapped addr = false

instance (m : Machine) (addr : Nat) : Decidable (inaccessible m addr) := by
  unfold inaccessible; infer_instance

/-- The call record at `esp` refers to an inaccessible address: the address of
the opcode word, or, for the operation the opcode names, the address of one of
its argument words (word `i + 1` for `i` below the number of arguments) or the
address held in its pointer-typed argument. -/
def inaccessible_record (m : Machine) (esp : Nat) : Prop :=
  inaccessible m esp ∨
    ∃ op ∈ catalog, to_int (load m esp) = op.nr ∧
      ((∃ i ∈ List.range op.argc, inaccessible m (esp + 4 * (i + 1))) ∨
        (∃ j, op.pointer_arg = some j ∧ inaccessible m (load m (esp + 4 * j))))

/-- The thread records reached from a fresh process by system calls of the
dispatcher, each of which starts with the counter below `bound`. -/
inductive ReachedBelow (bound : Int) : Thread → Prop where
  | fresh (name : String) : ReachedBelow bound (fresh_thread name)
  | syscall (m : Machine) (esp : Nat) (k : Kernel) :
    ReachedBelow bound k.cur → k.cur.fd < bound →
    ReachedBelow bound (syscall_handler m esp k).kernel.cur

/-- The process `main` with the single open file 77 under the descriptor
`INT_MAX` and the counter at `INT_MAX`. -/
def full_counter_thread : Thread := ⟨"main", [⟨77, INT_MAX⟩], INT_MAX, [], 0⟩

/-- Modelled from the spec: `TID_ERROR` of `threads/thread.h`, the identifier
`process_execute` returns when no process was spawned; the header is not among
the sources, the value is the one Pintos fixes. -/
def TID_ERROR : Int := -1

/-- Modelled from the spec: what `process_wait` of `process.c`, which is not
among the sources, returns to the waiting parent: the parent reads its
`last_child_status`. -/
def process_wait_reads (parent : Thread) : Int := parent.last_child_status

/-- The console read of `n` bytes into `buffer` in the words of the spec: for
each `i` below `n`, in order, one call of `input_getc` and the store of the
key it returned, as a byte, at the address `buffer + i` of the 32-bit address
space. -/
def console_read_events (m : Machine) (buffer n : Nat) : List Event :=
  (List.range n).flatMap fun i =>
    [Event.input_getc, Event.store_byte ((buffer + i) % 4294967296) (m.input_getc i % 256)]

/-- The bytes stored into user memory by the events, in order, each with its
address. -/
def stores : List Event → List (Nat × Nat)
  | [] => []
  | .store_byte addr byte :: rest => (addr, byte) :: stores rest
  | _ :: rest => stores rest

/-- Some byte of the machine word of 4 bytes at `addr` is at or above the
user/kernel split or unmapped. -/
def word_inaccessible (m : Machine) (addr : Nat) : Prop :=
  ∃ b ∈ List.range 4, inaccessible m (addr + b)

instance (m : Machine) (addr : Nat) : Decidable (word_inaccessible m addr) := by
  unfold word_inaccessible; infer_instance

/-- The machine whose memory holds `w` in the word at `addr` and is otherwise
as in `m`. -/
def Machine.set_word (m : Machine) (addr w : Nat) : Machine :=
  { m with word := fun a => if a = addr then w else m.word a }

/-- A machine for the examples with the call record at the end of the mapped
page `[0x1000, 0x2000)`: the word at `esp` holds `w0`, the word at `esp + 4`
holds `w1`. -/
def edge_machine (esp w0 w1 : Nat) : Machine :=
  { sample_machine 0 0 0 0 with
    word := fun a => if a = esp then w0 else if a = esp + 4 then w1 else 0 }

/-- One of the four bytes of the word at `addr` is not mapped: the kernel's
4-byte read of the word page-faults. -/
def word_unmapped (m : Machine) (addr : Nat) : Prop :=
  ∃ b ∈ List.range 4, m.mapped (addr + b) = false

instance (m : Machine) (addr : Nat) : Decidable (word_unmapped m addr) := by
  unfold word_unmapped; infer_instance

/-- `syscall_handler` with the page faults of its own reads: the statements of
the dispatcher in their order, each first read of a word of the call record
(`*(int *) f->esp`, `*(p + 1)`, ...) faulting when the word has an unmapped
byte, which leaves the state as the call found it. Where no read faults this
is `syscall_handler`. -/
def syscall_handler_faulting (m : Machine) (esp : Nat) (k : Kernel) : Step Unit :=
  let p := esp
  if !valid m p then kill k
  else if word_unmapped m p then .fault p k
  else
    let nr := to_int (load m p)
    if nr = SYS_HALT then .halt (k.log .shutdown_power_off)
    else if nr = SYS_EXIT then
      if !valid m (p + 4) then kill k
      else if word_unmapped m (p + 4) then .fault (p + 4) k
      else ourExit (to_int (load m (p + 4))) k
    else if nr = SYS_EXEC then
      if !valid m (p + 4) then kill k
      else if word_unmapped m (p + 4) then .fault (p + 4) k
      else if !valid m (load m (p + 4)) then kill k
      else set_eax to_uint32 (execute m (load m (p + 4)) k)
    else if nr = SYS_WAIT then
      if !valid m (p + 4) then kill k
      else if word_unmapped m (p + 4) then .fault (p + 4) k
      else set_eax to_uint32 (wait m (to_int (load m (p + 4))) k)
    else if nr = SYS_CREATE then
      if !valid m (p + 4) || !valid m (p + 8) then kill k
      else if word_unmapped m (p + 4) then .fault (p + 4) k
      else if !valid m (load m (p + 4)) then kill k
      else if load m (p + 4) = 0 then ourExit (-1) k
      else if word_unmapped m (p + 8) then .fault (p + 8) k
      else
        set_eax (fun b => if b then 1 else 0)
          (create_file m (load m (p + 4)) (to_int (load m (p + 8))) k)
    else if nr = SYS_REMOVE then
      if !valid m (p + 4) then kill k
      else if word_unmapped m (p + 4) then .fault (p + 4) k
      else if !valid m (load m (p + 4)) then kill k
      else if load m (p + 4) = 0 then ourExit (-1) k
      else set_eax to_uint32 (remove_file m (load m (p + 4)) k)
    else if nr = SYS_OPEN then
      if !valid m (p + 4) then kill k
      else if word_unmapped m (p + 4) then .fault (p + 4) k
      else if !valid m (load m (p + 4)) then kill k
      else if load m (p + 4) = 0 then .ret () { k with eax := to_uint32 (-1) }
      else set_eax to_uint32 (open_file m (load m (p + 4)) k)
    else if nr = SYS_FILESIZE then
      if !valid m (p + 4) then kill k
      else if word_unmapped m (p + 4) then .fault (p + 4) k
      else set_eax id (filesize m (to_int (load m (p + 4))) k)
    else if nr = SYS_READ then
      if !valid m (p + 4) || !valid m (p + 8) || !valid m (p + 12) then kill k
      else if word_unmapped m (p + 8) then .fault (p + 8) k
      else if !valid m (load m (p + 8)) then kill k
      else if word_unmapped m (p + 4) then .fault (p + 4) k
      else if word_unmapped m (p + 12) then .fault (p + 12) k
      else
        set_eax id (read m (to_int (load m (p + 4))) (load m (p + 8)) (load m (p + 12)) k)
    else if nr = SYS_WRITE then
      if !valid m (p + 4) || !valid m (p + 8) || !valid m (p + 12) then kill k
      else if word_unmapped m (p + 8) then .fault (p + 8) k
      else if !valid m (load m (p + 8)) then kill k
      else if word_unmapped m (p + 4) then .fault (p + 4) k
      else if word_unmapped m (p + 12) then .fault (p + 12) k
      else
        set_eax id (write m (to_int (load m (p + 4))) (load m (p + 8)) (load m (p + 12)) k)
    else if nr = SYS_SEEK then
      if !valid m (p + 4) || !valid m (p + 8) then kill k
      else if word_unmapped m (p + 4) then .fault (p + 4) k
      else if word_unmapped m (p + 8) then .fault (p + 8) k
      else seek (to_int (load m (p + 4))) (load m (p + 8)) k
    else if nr = SYS_TELL then
      if !valid m (p + 4) then kill k
      else .ret () k
    else if nr = SYS_CLOSE then
      if !valid m (p + 4) then kill k
      else if word_unmapped m (p + 4) then .fault (p + 4) k
      else close_file (to_int (load m (p + 4))) k
    else kill k

/-! ## Arithmetic of the counter -/

theorem wrap_int_of_range (x : Int) (hlo : INT_MIN ≤ x) (hhi : x ≤ INT_MAX) :
    wrap_int x = x := by
  unfold INT_MIN at hlo
  unfold INT_MAX at hhi
  unfold wrap_int
  omega

/-! ## Lookup in the descriptor table -/

theorem get_file_scan_some (fd : Int) (files : List OpenFile) (e : OpenFile)
    (h : (get_file_scan fd files).1 = some e) : e ∈ files ∧ e.fd = fd := by
  induction files with
  | nil => simp [get_file_scan] at h
  | cons file rest ih =>
    unfold get_file_scan at h
    by_cases h1 : file.fd < fd
    · simp only [h1, if_true] at h
      exact ⟨List.mem_cons_of_mem _ (ih h).1, (ih h).2⟩
    · by_cases h2 : file.fd = fd
      · simp only [h1, h2, if_false, if_true] at h
        simp at h
        subst h
        exact ⟨List.mem_cons_self _ _, h2⟩
      · simp [h1, h2] at h

theorem get_file_some (fd : Int) (files : List OpenFile) (e : OpenFile)
    (h : get_file fd files = some e) : e ∈ files ∧ e.fd = fd ∧ fd ≠ 0 := by
  unfold get_file get_file_run at h
  by_cases h0 : fd = 0 ∨ files.isEmpty = true
  · rw [if_pos h0] at h
    simp at h
  · rw [if_neg h0] at h
    have := get_file_scan_some fd files e h
    exact ⟨this.1, this.2, fun hz => h0 (Or.inl hz)⟩

theorem get_file_none_of_absent (fd : Int) (files : List OpenFile)
    (h : ∀ e ∈ files, e.fd ≠ fd) : get_file fd files = none := by
  cases hg : get_file fd files with
  | none => rfl
  | some e =>
    have := get_file_some fd files e hg
    exact absurd this.2.1 (h e this.1)

theorem get_file_scan_of_mem (fd : Int) (files : List OpenFile) (hs : ascending files)
    (e : OpenFile) (he : e ∈ files) (hfd : e.fd = fd) :
    (get_file_scan fd files).1 = some e := by
  induction files with
  | nil => simp at he
  | cons file rest ih =>
    unfold ascending at hs
    rw [List.pairwise_cons] at hs
    unfold get_file_scan
    rcases List.mem_cons.mp he with h | h
    · subst h
      simp [hfd]
    · have hlt : file.fd < fd := hfd ▸ hs.1 e h
      simp only [hlt, if_true]
      exact ih hs.2 h

theorem get_file_of_mem (fd : Int) (files : List OpenFile) (hs : ascending files)
    (e : OpenFile) (he : e ∈ files) (hfd : e.fd = fd) (h0 : fd ≠ 0) :
    get_file fd files = some e := by
  unfold get_file get_file_run
  have hne : ¬ (fd = 0 ∨ files.isEmpty = true) := by
    rintro (h | h)
    · exact h0 h
    · cases files with
      | nil => simp at he
      | cons a l => simp at h
  rw [if_neg hne]
  exact get_file_scan_of_mem fd files hs e he hfd



/-- C6: on a table with strictly ascending handles, `get_file fd` returns the
entry whose handle is `fd` whenever there is one and `fd` is not 0, that entry
is the only one with this handle, and it returns `NULL` when `fd` is 0 or no
entry has the handle (for negative `fd` and for `fd` above every handle too);
on the empty table it returns `NULL` having examined no entry. -/
theorem get_file_finds_unique_entry (files : List OpenFile) (fd : Int)
    (hs : ascending files) :
    (∀ e ∈ files, e.fd = fd → fd ≠ 0 → get_file fd files = some e) ∧
    (∀ e ∈ files, ∀ e2 ∈ files, e.fd = fd → e2.fd = fd → e = e2) ∧
    ((fd = 0 ∨ ∀ e ∈ files, e.fd ≠ fd) → get_file fd files = none) ∧
    get_file_run fd [] = (none, 0) := by
  refine ⟨fun e he hfd h0 => get_file_of_mem fd files hs e he hfd h0, ?_, ?_, ?_⟩
  · intro e he e2 he2 hfd hfd2
    have h1 := get_file_scan_of_mem fd files hs e he hfd
    have h2 := get_file_scan_of_mem fd files hs e2 he2 hfd2
    rw [h1] at h2
    exact Option.some.inj h2
  · rintro (h0 | habs)
    · unfold get_file get_file_run
      rw [if_pos (Or.inl h0)]
    · exact get_file_none_of_absent fd files habs
  · unfold get_file_run
    simp

/-- Witness of C6: in the table with handles 3, 4, 6 the lookup of 4 returns
the second entry, and the lookups of 5, 0, -1 and 7 return `NULL`. -/
theorem get_file_finds_unique_entry_witness :
    ascending [⟨10, 3⟩, ⟨11, 4⟩, ⟨12, 6⟩] ∧
    get_file 4 [⟨10, 3⟩, ⟨11, 4⟩, ⟨12, 6⟩] = some ⟨11, 4⟩ ∧
    get_file 5 [⟨10, 3⟩, ⟨11, 4⟩, ⟨12, 6⟩] = none ∧
    get_file 0 [⟨10, 3⟩, ⟨11, 4⟩, ⟨12, 6⟩] = none ∧
    get_file (-1) [⟨10, 3⟩, ⟨11, 4⟩, ⟨12, 6⟩] = none ∧
    get_file 7 [⟨10, 3⟩, ⟨11, 4⟩, ⟨12, 6⟩] = none :=
  ⟨by decide,
    (get_file_finds_unique_entry [⟨10, 3⟩, ⟨11, 4⟩, ⟨12, 6⟩] 4 (by decide)).1 ⟨11, 4⟩
      (by decide) rfl (by decide),
    by decide, by decide, by decide, by decide⟩

/-! ## Allocation of descriptor numbers -/

theorem open_file_some (m : Machine) (name : Nat) (k : Kernel) (file : Nat)
    (h : m.filesys_open name = some file) :
    open_file m name k =
      .ret (wrap_int (k.cur.fd + 1))
        ((k.log (.filesys_open name)).set_files
          (k.cur.my_opened_files_list ++ [⟨file, wrap_int (k.cur.fd + 1)⟩])
          (wrap_int (k.cur.fd + 1))) := by
  simp [open_file, h, Kernel.log]

theorem open_file_none (m : Machine) (name : Nat) (k : Kernel)
    (h : m.filesys_open name = none) :
    open_file m name k = .ret (-1) (k.log (.filesys_open name)) := by
  simp [open_file, h]

theorem close_file_counter (fd : Int) (k : Kernel) :
    (close_file fd k).kernel.cur.fd = k.cur.fd := by
  unfold close_file
  cases get_file fd k.cur.my_opened_files_list <;>
    simp [Step.kernel, Kernel.log, Kernel.set_files]

theorem returned_fds_increasing_aux (calls : List FdCall) :
    ∀ k : Kernel, INT_MIN ≤ k.cur.fd →
      k.cur.fd + (successful_opens calls : Int) ≤ INT_MAX →
      (returned_fds calls k).Pairwise (fun a b => a < b) ∧
        ∀ fd ∈ returned_fds calls k, k.cur.fd < fd := by
  induction calls with
  | nil =>
    intro k _ _
    simp [returned_fds]
  | cons call rest ih =>
    intro k hlo hhi
    cases call with
    | open_file m name =>
      cases hopen : m.filesys_open name with
      | none =>
        have hk : (open_file m name k).kernel.cur.fd = k.cur.fd := by
          rw [open_file_none m name k hopen]; rfl
        have := ih (open_file m name k).kernel (by rw [hk]; exact hlo)
          (by rw [hk]; simpa [successful_opens, hopen] using hhi)
        rw [hk] at this
        simpa [returned_fds, hopen] using this
      | some file =>
        have hsucc : (successful_opens (FdCall.open_file m name :: rest) : Int) =
            1 + successful_opens rest := by
          simp [successful_opens, hopen]
        rw [hsucc] at hhi
        have hnn : (0 : Int) ≤ successful_opens rest := Int.natCast_nonneg _
        have hw : wrap_int (k.cur.fd + 1) = k.cur.fd + 1 :=
          wrap_int_of_range _ (by omega) (by omega)
        have hk : (open_file m name k).kernel.cur.fd = k.cur.fd + 1 := by
          rw [open_file_some m name k file hopen, hw]; rfl
        have hv : (open_file m name k).value = some (k.cur.fd + 1) := by
          rw [open_file_some m name k file hopen, hw]; rfl
        have := ih (open_file m name k).kernel (by rw [hk]; omega) (by rw [hk]; omega)
        rw [hk] at this
        simp only [returned_fds, hopen, Option.isSome_some, if_true, hv, Option.toList_some,
          List.singleton_append, List.pairwise_cons, List.mem_cons]
        refine ⟨⟨fun fd hfd => this.2 fd hfd, this.1⟩, ?_⟩
        rintro fd (hfd | hfd)
        · omega
        · have := this.2 fd hfd
          omega
    | close_file fd =>
      have hk := close_file_counter fd k
      have := ih (close_file fd k).kernel (by rw [hk]; exact hlo)
        (by rw [hk]; simpa [successful_opens] using hhi)
      rw [hk] at this
      simpa [returned_fds] using this

/-- C1: in every sequence of `open_file` and `close_file` calls, run from any
state whose counter is a C `int` that stays below `INT_MAX` before each
successful open (the counter plus the number of successful opens is at most
`INT_MAX`), the descriptor numbers returned by the successful opens are
strictly increasing in call order, all above the starting counter, and no
number is returned twice, whatever is closed in between. -/
theorem returned_fds_strictly_increasing (calls : List FdCall) (k : Kernel)
    (hlo : INT_MIN ≤ k.cur.fd)
    (hhi : k.cur.fd + (successful_opens calls : Int) ≤ INT_MAX) :
    (returned_fds calls k).Pairwise (fun a b => a < b) ∧
    (∀ fd ∈ returned_fds calls k, k.cur.fd < fd) ∧
    (returned_fds calls k).Nodup := by
  have h := returned_fds_increasing_aux calls k hlo hhi
  exact ⟨h.1, h.2, h.1.imp (fun hab => ne_of_lt hab)⟩

/-- Witness of C1: open, open, close of the first descriptor, open, in a fresh
process; the numbers returned are 3, 4 and 5, the third above the first two. -/
theorem returned_fds_strictly_increasing_witness :
    INT_MIN ≤ sample_kernel.cur.fd ∧
    sample_kernel.cur.fd + (successful_opens open_open_close_open : Int) ≤ INT_MAX ∧
    returned_fds open_open_close_open sample_kernel = [3, 4, 5] ∧
    (returned_fds open_open_close_open sample_kernel).Pairwise (fun a b => a < b) ∧
    (returned_fds open_open_close_open sample_kernel).Nodup :=
  ⟨by decide, by decide, by decide,
    (returned_fds_strictly_increasing open_open_close_open sample_kernel
      (by decide) (by decide)).1,
    (returned_fds_strictly_increasing open_open_close_open sample_kernel
      (by decide) (by decide)).2.2⟩

/-- C4: when the file system yields no file for the name, `open_file` returns
-1 after the one `filesys_open` call, and the running thread, with its
descriptor table and counter, is unchanged; hence the next `open_file` returns
the same number and leaves the same thread record as if the failed open had
never been made. -/
theorem failed_open_allocates_nothing (m : Machine) (name : Nat) (k : Kernel)
    (h : m.filesys_open name = none) :
    open_file m name k = .ret (-1) (k.log (.filesys_open name)) ∧
    (open_file m name k).kernel.cur = k.cur ∧
    (∀ (m2 : Machine) (name2 : Nat),
      (open_file m2 name2 (open_file m name k).kernel).value = (open_file m2 name2 k).value ∧
      (open_file m2 name2 (open_file m name k).kernel).kernel.cur =
        (open_file m2 name2 k).kernel.cur) := by
  rw [open_file_none m name k h]
  refine ⟨rfl, rfl, ?_⟩
  intro m2 name2
  cases h2 : m2.filesys_open name2 with
  | none => simp [open_file, h2, Step.kernel, Step.value, Kernel.log]
  | some file => simp [open_file, h2, Step.kernel, Step.value, Kernel.log, Kernel.set_files]

/-- Witness of C4: in a fresh process the open of an absent name returns -1 and
the open that follows returns 3. -/
theorem failed_open_allocates_nothing_witness :
    (sample_machine 6 0x1300 0 0).filesys_open 0x1300 = none ∧
    open_file (sample_machine 6 0x1300 0 0) 0x1300 sample_kernel =
      .ret (-1) (sample_kernel.log (.filesys_open 0x1300)) ∧
    (open_file (sample_machine 6 0x1100 0 0) 0x1100
      (open_file (sample_machine 6 0x1300 0 0) 0x1300 sample_kernel).kernel).value = some 3 :=
  ⟨by decide,
    (failed_open_allocates_nothing (sample_machine 6 0x1300 0 0) 0x1300 sample_kernel
      (by decide)).1,
    by decide⟩

/-! ## The address check -/

theorem valid_eq_false_iff (m : Machine) (addr : Nat) :
    valid m addr = false ↔ inaccessible m addr := by
  unfold valid is_user_vaddr inaccessible
  by_cases h : addr < PHYS_BASE
  · simp [h]
  · simp [h, Nat.le_of_not_lt h]

theorem valid_eq_true_iff (m : Machine) (addr : Nat) :
    valid m addr = true ↔ ¬ inaccessible m addr := by
  rw [← valid_eq_false_iff]
  cases valid m addr <;> simp

/-! ## The dispatcher, one operation at a time -/

theorem handler_bad_esp (m : Machine) (esp : Nat) (k : Kernel) (h : valid m esp = false) :
    syscall_handler m esp k = kill k := by
  simp [syscall_handler, h]

theorem handler_halt (m : Machine) (esp : Nat) (k : Kernel) (hv : valid m esp = true)
    (hop : to_int (load m esp) = SYS_HALT) :
    syscall_handler m esp k = .halt (k.log .shutdown_power_off) := by
  simp [syscall_handler, hv, hop]

theorem handler_exit (m : Machine) (esp : Nat) (k : Kernel) (hv : valid m esp = true)
    (hop : to_int (load m esp) = SYS_EXIT) :
    syscall_handler m esp k =
      if !valid m (esp + 4) then kill k else ourExit (to_int (load m (esp + 4))) k := by
  simp [syscall_handler, hv, hop, SYS_HALT, SYS_EXIT]

theorem handler_exec (m : Machine) (esp : Nat) (k : Kernel) (hv : valid m esp = true)
    (hop : to_int (load m esp) = SYS_EXEC) :
    syscall_handler m esp k =
      if !valid m (esp + 4) || !valid m (load m (esp + 4)) then kill k
      else set_eax to_uint32 (execute m (load m (esp + 4)) k) := by
  simp [syscall_handler, hv, hop, SYS_HALT, SYS_EXIT, SYS_EXEC]

theorem handler_wait (m : Machine) (esp : Nat) (k : Kernel) (hv : valid m esp = true)
    (hop : to_int (load m esp) = SYS_WAIT) :
    syscall_handler m esp k =
      if !valid m (esp + 4) then kill k
      else set_eax to_uint32 (wait m (to_int (load m (esp + 4))) k) := by
  simp [syscall_handler, hv, hop, SYS_HALT, SYS_EXIT, SYS_EXEC, SYS_WAIT]

theorem handler_create (m : Machine) (esp : Nat) (k : Kernel) (hv : valid m esp = true)
    (hop : to_int (load m esp) = SYS_CREATE) :
    syscall_handler m esp k =
      if !valid m (esp + 4) || !valid m (esp + 8) || !valid m (load m (esp + 4)) then kill k
      else if load m (esp + 4) = 0 then ourExit (-1) k
      else
        set_eax (fun b => if b then 1 else 0)
          (create_file m (load m (esp + 4)) (to_int (load m (esp + 8))) k) := by
  simp [syscall_handler, hv, hop, SYS_HALT, SYS_EXIT, SYS_EXEC, SYS_WAIT, SYS_CREATE]

theorem handler_remove (m : Machine) (esp : Nat) (k : Kernel) (hv : valid m esp = true)
    (hop : to_int (load m esp) = SYS_REMOVE) :
    syscall_handler m esp k =
      if !valid m (esp + 4) || !valid m (load m (esp + 4)) then kill k
      else if load m (esp + 4) = 0 then ourExit (-1) k
      else set_eax to_uint32 (remove_file m (load m (esp + 4)) k) := by
  simp [syscall_handler, hv, hop, SYS_HALT, SYS_EXIT, SYS_EXEC, SYS_WAIT, SYS_CREATE,
    SYS_REMOVE]

theorem handler_open (m : Machine) (esp : Nat) (k : Kernel) (hv : valid m esp = true)
    (hop : to_int (load m esp) = SYS_OPEN) :
    syscall_handler m esp k =
      if !valid m (esp + 4) || !valid m (load m (esp + 4)) then kill k
      else if load m (esp + 4) = 0 then .ret () { k with eax := to_uint32 (-1) }
      else set_eax to_uint32 (open_file m (load m (esp + 4)) k) := by
  simp [syscall_handler, hv, hop, SYS_HALT, SYS_EXIT, SYS_EXEC, SYS_WAIT, SYS_CREATE,
    SYS_REMOVE, SYS_OPEN]

theorem handler_filesize (m : Machine) (esp : Nat) (k : Kernel) (hv : valid m esp = true)
    (hop : to_int (load m esp) = SYS_FILESIZE) :
    syscall_handler m esp k =
      if !valid m (esp + 4) then kill k
      else set_eax id (filesize m (to_int (load m (esp + 4))) k) := by
  simp [syscall_handler, hv, hop, SYS_HALT, SYS_EXIT, SYS_EXEC, SYS_WAIT, SYS_CREATE,
    SYS_REMOVE, SYS_OPEN, SYS_FILESIZE]

theorem handler_read (m : Machine) (esp : Nat) (k : Kernel) (hv : valid m esp = true)
    (hop : to_int (load m esp) = SYS_READ) :
    syscall_handler m esp k =
      if !valid m (esp + 4) || !valid m (esp + 8) || !valid m (esp + 12) ||
          !valid m (load m (esp + 8)) then kill k
      else
        set_eax id
          (read m (to_int (load m (esp + 4))) (load m (esp + 8)) (load m (esp + 12)) k) := by
  simp [syscall_handler, hv, hop, SYS_HALT, SYS_EXIT, SYS_EXEC, SYS_WAIT, SYS_CREATE,
    SYS_REMOVE, SYS_OPEN, SYS_FILESIZE, SYS_READ]

theorem handler_write (m : Machine) (esp : Nat) (k : Kernel) (hv : valid m esp = true)
    (hop : to_int (load m esp) = SYS_WRITE) :
    syscall_handler m esp k =
      if !valid m (esp + 4) || !valid m (esp + 8) || !valid m (esp + 12) ||
          !valid m (load m (esp + 8)) then kill k
      else
        set_eax id
          (write m (to_int (load m (esp + 4))) (load m (esp + 8)) (load m (esp + 12)) k) := by
  simp [syscall_handler, hv, hop, SYS_HALT, SYS_EXIT, SYS_EXEC, SYS_WAIT, SYS_CREATE,
    SYS_REMOVE, SYS_OPEN, SYS_FILESIZE, SYS_READ, SYS_WRITE]

theorem handler_seek (m : Machine) (esp : Nat) (k : Kernel) (hv : valid m esp = true)
    (hop : to_int (load m esp) = SYS_SEEK) :
    syscall_handler m esp k =
      if !valid m (esp + 4) || !valid m (esp + 8) then kill k
      else seek (to_int (load m (esp + 4))) (load m (esp + 8)) k := by
  simp [syscall_handler, hv, hop, SYS_HALT, SYS_EXIT, SYS_EXEC, SYS_WAIT, SYS_CREATE,
    SYS_REMOVE, SYS_OPEN, SYS_FILESIZE, SYS_READ, SYS_WRITE, SYS_SEEK]

theorem handler_tell (m : Machine) (esp : Nat) (k : Kernel) (hv : valid m esp = true)
    (hop : to_int (load m esp) = SYS_TELL) :
    syscall_handler m esp k = if !valid m (esp + 4) then kill k else .ret () k := by
  simp [syscall_handler, hv, hop, SYS_HALT, SYS_EXIT, SYS_EXEC, SYS_WAIT, SYS_CREATE,
    SYS_REMOVE, SYS_OPEN, SYS_FILESIZE, SYS_READ, SYS_WRITE, SYS_SEEK, SYS_TELL]

theorem handler_close (m : Machine) (esp : Nat) (k : Kernel) (hv : valid m esp = true)
    (hop : to_int (load m esp) = SYS_CLOSE) :
    syscall_handler m esp k =
      if !valid m (esp + 4) then kill k
      else close_file (to_int (load m (esp + 4))) k := by
  simp [syscall_handler, hv, hop, SYS_HALT, SYS_EXIT, SYS_EXEC, SYS_WAIT, SYS_CREATE,
    SYS_REMOVE, SYS_OPEN, SYS_FILESIZE, SYS_READ, SYS_WRITE, SYS_SEEK, SYS_TELL, SYS_CLOSE]

theorem handler_default (m : Machine) (esp : Nat) (k : Kernel) (hv : valid m esp = true)
    (h0 : to_int (load m esp) ≠ SYS_HALT) (h1 : to_int (load m esp) ≠ SYS_EXIT)
    (h2 : to_int (load m esp) ≠ SYS_EXEC) (h3 : to_int (load m esp) ≠ SYS_WAIT)
    (h4 : to_int (load m esp) ≠ SYS_CREATE) (h5 : to_int (load m esp) ≠ SYS_REMOVE)
    (h6 : to_int (load m esp) ≠ SYS_OPEN) (h7 : to_int (load m esp) ≠ SYS_FILESIZE)
    (h8 : to_int (load m esp) ≠ SYS_READ) (h9 : to_int (load m esp) ≠ SYS_WRITE)
    (h10 : to_int (load m esp) ≠ SYS_SEEK) (h11 : to_int (load m esp) ≠ SYS_TELL)
    (h12 : to_int (load m esp) ≠ SYS_CLOSE) :
    syscall_handler m esp k = kill k := by
  simp [syscall_handler, hv, h0, h1, h2, h3, h4, h5, h6, h7, h8, h9, h10, h11, h12]

/-! ## What `ourExit` leaves behind -/

theorem killed_kill {α : Type} (k : Kernel) : Killed (kill k : Step α) k := by
  simp [Killed, kill, ourExit, Step.value, Step.kernel]

theorem set_eax_ourExit {α : Type} (conv : α → Nat) (status : Int) (k : Kernel) :
    set_eax conv (ourExit status k) = ourExit status k := by
  simp [set_eax, ourExit]

/-! ## Operations on a descriptor that is not in the table -/

/-- C7: when no entry of the descriptor table has the handle `fd`, `filesize`
and `seek` end the process with status -1, and so does `read` when `fd` is not
0 (for `fd = 1` as well): the step is `ourExit (-1)`, no file-system call is in
the trace, no value is returned, and the dispatcher, which validated the
argument words, writes nothing into the return slot. -/
theorem absent_descriptor_terminates (m : Machine) (k : Kernel) (fd : Int)
    (buffer size position : Nat)
    (h : ∀ e ∈ k.cur.my_opened_files_list, e.fd ≠ fd) :
    Killed (filesize m fd k) k ∧
    Killed (seek fd position k) k ∧
    (fd ≠ 0 → Killed (read m fd buffer size k) k) ∧
    (∀ esp, valid m esp = true → to_int (load m esp) = SYS_FILESIZE →
      valid m (esp + 4) = true → to_int (load m (esp + 4)) = fd →
      Killed (syscall_handler m esp k) k) ∧
    (∀ esp, valid m esp = true → to_int (load m esp) = SYS_SEEK →
      valid m (esp + 4) = true → valid m (esp + 8) = true →
      to_int (load m (esp + 4)) = fd →
      Killed (syscall_handler m esp k) k) ∧
    (∀ esp, valid m esp = true → to_int (load m esp) = SYS_READ →
      valid m (esp + 4) = true → valid m (esp + 8) = true → valid m (esp + 12) = true →
      valid m (load m (esp + 8)) = true → to_int (load m (esp + 4)) = fd → fd ≠ 0 →
      Killed (syscall_handler m esp k) k) := by
  have hnone := get_file_none_of_absent fd k.cur.my_opened_files_list h
  have hsize : filesize m fd k = ourExit (-1) k := by simp [filesize, hnone]
  have hseek : seek fd position k = ourExit (-1) k := by simp [seek, hnone]
  have hread : fd ≠ 0 → read m fd buffer size k = ourExit (-1) k := by
    intro h0
    simp [read, h0, hnone]
  refine ⟨?_, ?_, ?_, ?_, ?_, ?_⟩
  · rw [hsize]; exact killed_kill k
  · rw [hseek]; exact killed_kill k
  · intro h0
    rw [hread h0]; exact killed_kill k
  · intro esp hv hop h1 hfd
    rw [handler_filesize m esp k hv hop]
    simp only [h1, Bool.not_true, Bool.false_eq_true, if_false, hfd, hsize, set_eax_ourExit]
    exact killed_kill k
  · intro esp hv hop h1 h2 hfd
    rw [handler_seek m esp k hv hop]
    simp only [h1, h2, Bool.not_true, Bool.or_self, Bool.false_eq_true, if_false, hfd]
    have hs : seek fd (load m (esp + 8)) k = ourExit (-1) k := by simp [seek, hnone]
    rw [hs]; exact killed_kill k
  · intro esp hv hop h1 h2 h3 h4 hfd h0
    rw [handler_read m esp k hv hop]
    simp only [h1, h2, h3, h4, Bool.not_true, Bool.or_self, Bool.false_eq_true, if_false, hfd]
    have hr : read m fd (load m (esp + 8)) (load m (esp + 12)) k = ourExit (-1) k := by
      simp [read, h0, hnone]
    rw [hr, set_eax_ourExit]; exact killed_kill k

/-- Witness of C7: `filesize (5)` in a fresh process, whose table is empty. -/
theorem absent_descriptor_terminates_witness :
    (∀ e ∈ sample_kernel.cur.my_opened_files_list, e.fd ≠ 5) ∧
    Killed (filesize (sample_machine 7 5 0 0) 5 sample_kernel) sample_kernel ∧
    Killed (syscall_handler (sample_machine 7 5 0 0) 0x1000 sample_kernel) sample_kernel :=
  ⟨by decide,
    (absent_descriptor_terminates (sample_machine 7 5 0 0) sample_kernel 5 0 0 0
      (by decide)).1,
    (absent_descriptor_terminates (sample_machine 7 5 0 0) sample_kernel 5 0 0 0
      (by decide)).2.2.2.1 0x1000 (by decide) (by decide) (by decide) (by decide)⟩

/-- C8: when `fd` is not 1 and no entry of the descriptor table has the handle
`fd` (0 and negative numbers included), `write` returns 0 in the state it
started from: the process goes on, the trace has no new call, and the
descriptor table and the counter are untouched; the dispatcher then stores 0
in the return slot and changes nothing else. -/
theorem write_absent_descriptor_returns_zero (m : Machine) (k : Kernel) (fd : Int)
    (buffer size : Nat) (h1 : fd ≠ 1)
    (h : ∀ e ∈ k.cur.my_opened_files_list, e.fd ≠ fd) :
    write m fd buffer size k = .ret 0 k ∧
    (∀ esp, valid m esp = true → to_int (load m esp) = SYS_WRITE →
      valid m (esp + 4) = true → valid m (esp + 8) = true → valid m (esp + 12) = true →
      valid m (load m (esp + 8)) = true → to_int (load m (esp + 4)) = fd →
      syscall_handler m esp k = .ret () { k with eax := 0 }) := by
  have hnone := get_file_none_of_absent fd k.cur.my_opened_files_list h
  have hw : ∀ b s, write m fd b s k = .ret 0 k := by
    intro b s
    simp [write, h1, hnone]
  refine ⟨hw buffer size, ?_⟩
  intro esp hv hop a1 a2 a3 a4 hfd
  rw [handler_write m esp k hv hop]
  simp only [a1, a2, a3, a4, Bool.not_true, Bool.or_self, Bool.false_eq_true, if_false, hfd, hw]
  rfl

/-- Witness of C8: `write (0, buffer, 2)` and `write (-1, buffer, 2)` in a fresh
process return 0. -/
theorem write_absent_descriptor_returns_zero_witness :
    (0 : Int) ≠ 1 ∧ (∀ e ∈ sample_kernel.cur.my_opened_files_list, e.fd ≠ 0) ∧
    write (sample_machine 9 0 0x1800 2) 0 0x1800 2 sample_kernel = .ret 0 sample_kernel ∧
    write (sample_machine 9 0 0x1800 2) (-1) 0x1800 2 sample_kernel = .ret 0 sample_kernel :=
  ⟨by decide, by decide,
    (write_absent_descriptor_returns_zero (sample_machine 9 0 0x1800 2) sample_kernel 0
      0x1800 2 (by decide) (by decide)).1,
    by decide⟩

/-- C9: when no entry of the descriptor table has the handle `fd` (never
opened, closed before, 0, 1 or negative), `close_file` returns in the state it
started from: nothing is closed, the process goes on, and the descriptor table
and the counter are as before; the dispatcher, with the argument word valid,
returns in that same state. -/
theorem close_absent_descriptor_is_noop (m : Machine) (k : Kernel) (fd : Int)
    (h : ∀ e ∈ k.cur.my_opened_files_list, e.fd ≠ fd) :
    close_file fd k = .ret () k ∧
    (∀ esp, valid m esp = true → to_int (load m esp) = SYS_CLOSE →
      valid m (esp + 4) = true → to_int (load m (esp + 4)) = fd →
      syscall_handler m esp k = .ret () k) := by
  have hnone := get_file_none_of_absent fd k.cur.my_opened_files_list h
  have hc : close_file fd k = .ret () k := by simp [close_file, hnone]
  refine ⟨hc, ?_⟩
  intro esp hv hop a1 hfd
  rw [handler_close m esp k hv hop]
  simp only [a1, Bool.not_true, Bool.false_eq_true, if_false, hfd, hc]

/-- Witness of C9: `close (7)` in a fresh process, through the dispatcher. -/
theorem close_absent_descriptor_is_noop_witness :
    (∀ e ∈ sample_kernel.cur.my_opened_files_list, e.fd ≠ 7) ∧
    close_file 7 sample_kernel = .ret () sample_kernel ∧
    syscall_handler (sample_machine 12 7 0 0) 0x1000 sample_kernel = .ret () sample_kernel :=
  ⟨by decide,
    (close_absent_descriptor_is_noop (sample_machine 12 7 0 0) sample_kernel 7
      (by decide)).1,
    (close_absent_descriptor_is_noop (sample_machine 12 7 0 0) sample_kernel 7
      (by decide)).2 0x1000 (by decide) (by decide) (by decide) (by decide)⟩

/-! ## Console output -/

/-- C10: `write (1, b, s)` makes exactly one call, `putbuf (b, s)`, whatever the
descriptor table holds and for every size, 0 included, makes no file-system
call, and returns `s`; it changes nothing else in the state. Through the
dispatcher, a validated `write` record with descriptor 1 adds that one call to
the trace and stores `s` in the return slot. -/
theorem write_console (m : Machine) (k : Kernel) (b s : Nat) :
    write m 1 b s k = .ret s (k.log (.putbuf b s)) ∧
    (write m 1 b s k).value = some s ∧
    (write m 1 b s k).kernel.trace = k.trace ++ [.putbuf b s] ∧
    (write m 1 b s k).kernel.cur = k.cur ∧
    (∀ esp, valid m esp = true → to_int (load m esp) = SYS_WRITE →
      valid m (esp + 4) = true → valid m (esp + 8) = true → valid m (esp + 12) = true →
      valid m (load m (esp + 8)) = true → to_int (load m (esp + 4)) = 1 →
      load m (esp + 8) = b → load m (esp + 12) = s →
      syscall_handler m esp k =
        .ret () { k with eax := s, trace := k.trace ++ [.putbuf b s] }) := by
  have hw : ∀ b s, write m 1 b s k = .ret s (k.log (.putbuf b s)) := by
    intro b s
    simp [write]
  refine ⟨hw b s, by rw [hw]; rfl, by rw [hw]; rfl, by rw [hw]; rfl, ?_⟩
  intro esp hv hop a1 a2 a3 a4 hfd hb hs
  subst hb
  subst hs
  rw [handler_write m esp k hv hop]
  simp only [a1, a2, a3, a4, Bool.not_true, Bool.or_self, Bool.false_eq_true, if_false, hfd,
    hw]
  rfl

/-- Witness of C10: `write (1, 0x1800, 0)` through the dispatcher calls
`putbuf (0x1800, 0)` once and returns 0, with a file open in the table. -/
theorem write_console_witness :
    valid (sample_machine 9 1 0x1800 0) 0x1000 = true ∧
    to_int (load (sample_machine 9 1 0x1800 0) 0x1000) = SYS_WRITE ∧
    syscall_handler (sample_machine 9 1 0x1800 0) 0x1000
        (sample_kernel.set_files [⟨70, 3⟩] 3) =
      .ret () { sample_kernel.set_files [⟨70, 3⟩] 3 with
        eax := 0, trace := [.putbuf 0x1800 0] } :=
  ⟨by decide, by decide,
    (write_console (sample_machine 9 1 0x1800 0) (sample_kernel.set_files [⟨70, 3⟩] 3)
      0x1800 0).2.2.2.2 0x1000 (by decide) (by decide) (by decide) (by decide) (by decide)
      (by decide) (by decide) (by decide) (by decide)⟩

/-! ## Inaccessible call records -/

theorem handler_inaccessible (m : Machine) (esp : Nat) (k : Kernel)
    (h : inaccessible_record m esp) : syscall_handler m esp k = kill k := by
  simp only [inaccessible_record, ← valid_eq_false_iff] at h
  cases hv : valid m esp with
  | false => exact handler_bad_esp m esp k hv
  | true =>
    rcases h with h | ⟨op, hmem, hop, hbad⟩
    · rw [hv] at h; cases h
    · simp only [catalog, List.mem_cons, List.mem_singleton, List.not_mem_nil, or_false] at hmem
      rcases hmem with rfl | rfl | rfl | rfl | rfl | rfl | rfl | rfl | rfl | rfl | rfl | rfl | rfl
      · simp at hbad
      all_goals
        first
        | rw [handler_exit m esp k hv hop]
        | rw [handler_exec m esp k hv hop]
        | rw [handler_wait m esp k hv hop]
        | rw [handler_create m esp k hv hop]
        | rw [handler_remove m esp k hv hop]
        | rw [handler_open m esp k hv hop]
        | rw [handler_filesize m esp k hv hop]
        | rw [handler_read m esp k hv hop]
        | rw [handler_write m esp k hv hop]
        | rw [handler_seek m esp k hv hop]
        | rw [handler_tell m esp k hv hop]
        | rw [handler_close m esp k hv hop]
      all_goals
        rcases hbad with ⟨i, hi, hvi⟩ | ⟨j, hj, hvj⟩
        · have hi := List.mem_range.mp hi
          interval_cases i <;> norm_num at hvi <;> simp [hvi]
        · first
          | (simp at hj; done)
          | (simp at hj
             subst hj
             norm_num at hvj
             simp [hvj])

/-- C2: for every operation of the catalog, when the address of the opcode
word, the address of an argument word of the operation, or the address held in
its pointer-typed argument is at or above the user/kernel split or unmapped,
`syscall_handler` ends the process with status -1 by the step `ourExit (-1)`
makes, which is also the result of the call `exit (-1)`: the only calls added
to the trace are the status line and `thread_exit` (no file-system, spawn or
console call), no value is returned, the return slot keeps its content, and
the running thread, with its descriptor table and counter, is unchanged. -/
theorem inaccessible_record_terminates (m : Machine) (esp : Nat) (k : Kernel)
    (h : inaccessible_record m esp) :
    Killed (syscall_handler m esp k) k ∧
    (syscall_handler m esp k).kernel.cur.my_opened_files_list = k.cur.my_opened_files_list ∧
    (syscall_handler m esp k).kernel.cur.fd = k.cur.fd ∧
    (∀ (m2 : Machine) (esp2 : Nat), valid m2 esp2 = true →
      to_int (load m2 esp2) = SYS_EXIT → valid m2 (esp2 + 4) = true →
      to_int (load m2 (esp2 + 4)) = -1 →
      syscall_handler m esp k = syscall_handler m2 esp2 k) := by
  have hk := handler_inaccessible m esp k h
  have hkilled : Killed (syscall_handler m esp k) k := by
    rw [hk]; exact killed_kill k
  refine ⟨hkilled, ?_, ?_, ?_⟩
  · rw [hkilled.2.2.2.1]
  · rw [hkilled.2.2.2.1]
  · intro m2 esp2 hv hop h1 hst
    rw [hk, handler_exit m2 esp2 k hv hop]
    simp only [h1, Bool.not_true, Bool.false_eq_true, if_false, hst]
    rfl

/-- Witness of C2: a `write` call record whose buffer pointer is `PHYS_BASE`. -/
theorem inaccessible_record_terminates_witness :
    inaccessible_record (sample_machine 9 1 0xc0000000 2) 0x1000 ∧
    Killed (syscall_handler (sample_machine 9 1 0xc0000000 2) 0x1000 sample_kernel)
      sample_kernel :=
  ⟨Or.inr ⟨⟨SYS_WRITE, 3, some 2⟩, by decide, by decide, Or.inr ⟨2, rfl, by decide⟩⟩,
    (inaccessible_record_terminates (sample_machine 9 1 0xc0000000 2) 0x1000 sample_kernel
      (Or.inr ⟨⟨SYS_WRITE, 3, some 2⟩, by decide, by decide, Or.inr ⟨2, rfl, by decide⟩⟩)).1⟩

/-! ## The buffer of `read` and `write` -/

/-- C3, as stated, fails: in `write (1, 0x1fff, 2)` and in `read (3, 0x1fff, 2)`
on an open descriptor 3, the call record is accessible, the first byte of the
buffer is the last byte of the mapped page and the last byte of the buffer, at
`0x2000`, is unmapped; the dispatcher does not end the process, it calls
`putbuf`, respectively `file_read`, and stores the result in the return
slot. -/
theorem buffer_end_unchecked :
    ¬ inaccessible (sample_machine 9 1 0x1fff 2) 0x1fff ∧
    inaccessible (sample_machine 9 1 0x1fff 2) (0x1fff + 2 - 1) ∧
    syscall_handler (sample_machine 9 1 0x1fff 2) 0x1000 sample_kernel =
      .ret () { sample_kernel with eax := 2, trace := [.putbuf 0x1fff 2] } ∧
    ¬ inaccessible (sample_machine 8 3 0x1fff 2) 0x1fff ∧
    inaccessible (sample_machine 8 3 0x1fff 2) (0x1fff + 2 - 1) ∧
    syscall_handler (sample_machine 8 3 0x1fff 2) 0x1000
        (sample_kernel.set_files [⟨70, 3⟩] 3) =
      .ret () { sample_kernel.set_files [⟨70, 3⟩] 3 with
        eax := 2, trace := [.file_read 70 0x1fff 2] } := by
  decide

/-- C3, amended: for `read` and `write` with the opcode word and the three
argument words accessible, the dispatcher checks the first byte of the buffer
only. When the address in the buffer argument is at or above the user/kernel
split or unmapped, the process is ended with status -1 before any file-system
or console call; when it is accessible, `read`, respectively `write`, is
called with the descriptor, buffer and size of the record and its result goes
to the return slot, whatever the accessibility of `buffer + size - 1`. -/
theorem buffer_start_checked (m : Machine) (esp : Nat) (k : Kernel)
    (h0 : ¬ inaccessible m esp) (h1 : ¬ inaccessible m (esp + 4))
    (h2 : ¬ inaccessible m (esp + 8)) (h3 : ¬ inaccessible m (esp + 12)) :
    (to_int (load m esp) = SYS_READ ∨ to_int (load m esp) = SYS_WRITE →
      inaccessible m (load m (esp + 8)) → Killed (syscall_handler m esp k) k) ∧
    (to_int (load m esp) = SYS_READ → ¬ inaccessible m (load m (esp + 8)) →
      syscall_handler m esp k =
        set_eax id
          (read m (to_int (load m (esp + 4))) (load m (esp + 8)) (load m (esp + 12)) k)) ∧
    (to_int (load m esp) = SYS_WRITE → ¬ inaccessible m (load m (esp + 8)) →
      syscall_handler m esp k =
        set_eax id
          (write m (to_int (load m (esp + 4))) (load m (esp + 8)) (load m (esp + 12)) k)) := by
  rw [← valid_eq_true_iff] at h0 h1 h2 h3
  refine ⟨?_, ?_, ?_⟩
  · rintro (hop | hop) hb
    · rw [← valid_eq_false_iff] at hb
      rw [handler_read m esp k h0 hop]
      simp only [h1, h2, h3, hb, Bool.not_true, Bool.not_false, Bool.or_true, if_true]
      exact killed_kill k
    · rw [← valid_eq_false_iff] at hb
      rw [handler_write m esp k h0 hop]
      simp only [h1, h2, h3, hb, Bool.not_true, Bool.not_false, Bool.or_true, if_true]
      exact killed_kill k
  · intro hop hb
    rw [← valid_eq_true_iff] at hb
    rw [handler_read m esp k h0 hop]
    simp only [h1, h2, h3, hb, Bool.not_true, Bool.or_self, Bool.false_eq_true, if_false]
  · intro hop hb
    rw [← valid_eq_true_iff] at hb
    rw [handler_write m esp k h0 hop]
    simp only [h1, h2, h3, hb, Bool.not_true, Bool.or_self, Bool.false_eq_true, if_false]

/-- Witness of C3, amended: the `write (1, 0x1fff, 2)` whose buffer only ends
in an unmapped page is passed to `write`, and a `write` whose buffer starts at
`PHYS_BASE` ends the process. -/
theorem buffer_start_checked_witness :
    ¬ inaccessible (sample_machine 9 1 0x1fff 2) 0x1000 ∧
    ¬ inaccessible (sample_machine 9 1 0x1fff 2) (0x1000 + 4) ∧
    ¬ inaccessible (sample_machine 9 1 0x1fff 2) (0x1000 + 8) ∧
    ¬ inaccessible (sample_machine 9 1 0x1fff 2) (0x1000 + 12) ∧
    syscall_handler (sample_machine 9 1 0x1fff 2) 0x1000 sample_kernel =
      set_eax id
        (write (sample_machine 9 1 0x1fff 2)
          (to_int (load (sample_machine 9 1 0x1fff 2) (0x1000 + 4)))
          (load (sample_machine 9 1 0x1fff 2) (0x1000 + 8))
          (load (sample_machine 9 1 0x1fff 2) (0x1000 + 12)) sample_kernel) ∧
    Killed (syscall_handler (sample_machine 9 1 0xc0000000 2) 0x1000 sample_kernel)
      sample_kernel :=
  ⟨by decide, by decide, by decide, by decide,
    (buffer_start_checked (sample_machine 9 1 0x1fff 2) 0x1000 sample_kernel
      (by decide) (by decide) (by decide) (by decide)).2.2 (by decide) (by decide),
    (buffer_start_checked (sample_machine 9 1 0xc0000000 2) 0x1000 sample_kernel
      (by decide) (by decide) (by decide) (by decide)).1 (Or.inr (by decide)) (by decide)⟩

/-! ## The descriptor-table invariant -/

theorem ascending_append_above (files : List OpenFile) (e : OpenFile)
    (hs : ascending files) (h : ∀ x ∈ files, x.fd < e.fd) : ascending (files ++ [e]) := by
  unfold ascending at *
  rw [List.pairwise_append]
  refine ⟨hs, List.pairwise_singleton _ _, ?_⟩
  intro a ha b hb
  rw [List.mem_singleton] at hb
  subst hb
  exact h a ha

theorem table_invariant_open (m : Machine) (name : Nat) (k : Kernel)
    (hinv : table_invariant k.cur) (hlo : 2 ≤ k.cur.fd) (hhi : k.cur.fd < INT_MAX) :
    table_invariant (open_file m name k).kernel.cur ∧ 2 ≤ (open_file m name k).kernel.cur.fd := by
  cases hopen : m.filesys_open name with
  | none =>
    rw [open_file_none m name k hopen]
    exact ⟨hinv, hlo⟩
  | some file =>
    have hw : wrap_int (k.cur.fd + 1) = k.cur.fd + 1 := by
      apply wrap_int_of_range
      · unfold INT_MIN; omega
      · omega
    rw [open_file_some m name k file hopen, hw]
    obtain ⟨hs, h1, hc⟩ := hinv
    refine ⟨⟨?_, ?_, ?_⟩, ?_⟩
    · apply ascending_append_above _ _ hs
      intro x hx
      have := hc x hx
      show x.fd < k.cur.fd + 1
      omega
    · intro e he
      rcases List.mem_append.mp he with h | h
      · exact h1 e h
      · rw [List.mem_singleton] at h
        subst h
        show 1 < k.cur.fd + 1
        omega
    · intro e he
      show e.fd ≤ k.cur.fd + 1
      rcases List.mem_append.mp he with h | h
      · have := hc e h
        omega
      · rw [List.mem_singleton] at h
        subst h
        exact le_refl _
    · show 2 ≤ k.cur.fd + 1
      omega

theorem table_invariant_close (fd : Int) (k : Kernel) (hinv : table_invariant k.cur) :
    table_invariant (close_file fd k).kernel.cur ∧
      (close_file fd k).kernel.cur.fd = k.cur.fd := by
  unfold close_file
  cases get_file fd k.cur.my_opened_files_list with
  | none => exact ⟨hinv, rfl⟩
  | some file =>
    obtain ⟨hs, h1, hc⟩ := hinv
    refine ⟨⟨?_, ?_, ?_⟩, rfl⟩
    · exact List.Pairwise.sublist (List.erase_sublist _ _) hs
    · intro e he
      exact h1 e (List.mem_of_mem_erase he)
    · intro e he
      exact hc e (List.mem_of_mem_erase he)

theorem set_eax_cur {α : Type} (conv : α → Nat) (s : Step α) :
    (set_eax conv s).kernel.cur = s.kernel.cur := by
  cases s <;> rfl

theorem ourExit_cur {α : Type} (status : Int) (k : Kernel) :
    (ourExit status k : Step α).kernel.cur = k.cur := rfl

theorem kill_cur {α : Type} (k : Kernel) : (kill k : Step α).kernel.cur = k.cur := rfl

theorem execute_table (m : Machine) (cmd_line : Nat) (k : Kernel) :
    (execute m cmd_line k).kernel.cur.my_opened_files_list = k.cur.my_opened_files_list ∧
      (execute m cmd_line k).kernel.cur.fd = k.cur.fd := by
  simp only [execute]
  split <;> exact ⟨rfl, rfl⟩

theorem wait_cur (m : Machine) (pid : Int) (k : Kernel) :
    (wait m pid k).kernel.cur = k.cur := rfl

theorem create_file_cur (m : Machine) (name : Nat) (size : Int) (k : Kernel) :
    (create_file m name size k).kernel.cur = k.cur := rfl

theorem remove_file_cur (m : Machine) (name : Nat) (k : Kernel) :
    (remove_file m name k).kernel.cur = k.cur := rfl

theorem write_cur (m : Machine) (fd : Int) (buffer size : Nat) (k : Kernel) :
    (write m fd buffer size k).kernel.cur = k.cur := by
  unfold write
  split
  · rfl
  · cases get_file fd k.cur.my_opened_files_list <;> rfl

theorem read_cur (m : Machine) (fd : Int) (buffer size : Nat) (k : Kernel) :
    (read m fd buffer size k).kernel.cur = k.cur := by
  unfold read
  split
  · cases (read_helper m buffer size 0).2 <;> rfl
  · cases get_file fd k.cur.my_opened_files_list <;> rfl

theorem filesize_cur (m : Machine) (fd : Int) (k : Kernel) :
    (filesize m fd k).kernel.cur = k.cur := by
  unfold filesize
  cases get_file fd k.cur.my_opened_files_list <;> rfl

theorem seek_cur (fd : Int) (position : Nat) (k : Kernel) :
    (seek fd position k).kernel.cur = k.cur := by
  unfold seek
  cases get_file fd k.cur.my_opened_files_list <;> rfl

/-- The dispatcher leaves the descriptor table and the counter as they were,
or as one call of `open_file` or of `close_file` leaves them. -/
theorem handler_table_cases (m : Machine) (esp : Nat) (k : Kernel) :
    ((syscall_handler m esp k).kernel.cur.my_opened_files_list = k.cur.my_opened_files_list ∧
      (syscall_handler m esp k).kernel.cur.fd = k.cur.fd) ∨
    (∃ name, (syscall_handler m esp k).kernel.cur = (open_file m name k).kernel.cur) ∨
    (∃ fd, (syscall_handler m esp k).kernel.cur = (close_file fd k).kernel.cur) := by
  have same : ∀ s : Step Unit, s.kernel.cur = k.cur →
      (s.kernel.cur.my_opened_files_list = k.cur.my_opened_files_list ∧
        s.kernel.cur.fd = k.cur.fd) ∨
      (∃ name, s.kernel.cur = (open_file m name k).kernel.cur) ∨
      (∃ fd, s.kernel.cur = (close_file fd k).kernel.cur) := by
    intro s hs
    left
    rw [hs]
    exact ⟨rfl, rfl⟩
  by_cases hv : valid m esp = true
  swap
  · rw [handler_bad_esp m esp k (by simpa using hv)]
    exact same (kill k) (kill_cur k)
  by_cases h0 : to_int (load m esp) = SYS_HALT
  · rw [handler_halt m esp k hv h0]
    exact same (.halt (k.log .shutdown_power_off)) rfl
  by_cases h1 : to_int (load m esp) = SYS_EXIT
  · rw [handler_exit m esp k hv h1]
    split_ifs
    · exact same (kill k) (kill_cur k)
    · exact same (ourExit _ k) (ourExit_cur _ k)
  by_cases h2 : to_int (load m esp) = SYS_EXEC
  · rw [handler_exec m esp k hv h2]
    split_ifs
    · exact same (kill k) (kill_cur k)
    · left
      rw [set_eax_cur]
      exact execute_table m _ k
  by_cases h3 : to_int (load m esp) = SYS_WAIT
  · rw [handler_wait m esp k hv h3]
    split_ifs
    · exact same (kill k) (kill_cur k)
    · exact same _ (by rw [set_eax_cur, wait_cur])
  by_cases h4 : to_int (load m esp) = SYS_CREATE
  · rw [handler_create m esp k hv h4]
    split_ifs
    · exact same (kill k) (kill_cur k)
    · exact same (ourExit _ k) (ourExit_cur _ k)
    · exact same _ (by rw [set_eax_cur, create_file_cur])
  by_cases h5 : to_int (load m esp) = SYS_REMOVE
  · rw [handler_remove m esp k hv h5]
    split_ifs
    · exact same (kill k) (kill_cur k)
    · exact same (ourExit _ k) (ourExit_cur _ k)
    · exact same _ (by rw [set_eax_cur, remove_file_cur])
  by_cases h6 : to_int (load m esp) = SYS_OPEN
  · rw [handler_open m esp k hv h6]
    split_ifs
    · exact same (kill k) (kill_cur k)
    · exact same (.ret () { k with eax := to_uint32 (-1) }) rfl
    · right; left
      exact ⟨_, set_eax_cur _ _⟩
  by_cases h7 : to_int (load m esp) = SYS_FILESIZE
  · rw [handler_filesize m esp k hv h7]
    split_ifs
    · exact same (kill k) (kill_cur k)
    · exact same _ (by rw [set_eax_cur, filesize_cur])
  by_cases h8 : to_int (load m esp) = SYS_READ
  · rw [handler_read m esp k hv h8]
    split_ifs
    · exact same (kill k) (kill_cur k)
    · exact same _ (by rw [set_eax_cur, read_cur])
  by_cases h9 : to_int (load m esp) = SYS_WRITE
  · rw [handler_write m esp k hv h9]
    split_ifs
    · exact same (kill k) (kill_cur k)
    · exact same _ (by rw [set_eax_cur, write_cur])
  by_cases h10 : to_int (load m esp) = SYS_SEEK
  · rw [handler_seek m esp k hv h10]
    split_ifs
    · exact same (kill k) (kill_cur k)
    · exact same _ (seek_cur _ _ k)
  by_cases h11 : to_int (load m esp) = SYS_TELL
  · rw [handler_tell m esp k hv h11]
    split_ifs
    · exact same (kill k) (kill_cur k)
    · exact same (.ret () k) rfl
  by_cases h12 : to_int (load m esp) = SYS_CLOSE
  · rw [handler_close m esp k hv h12]
    split_ifs
    · exact same (kill k) (kill_cur k)
    · right; right
      exact ⟨_, rfl⟩
  rw [handler_default m esp k hv h0 h1 h2 h3 h4 h5 h6 h7 h8 h9 h10 h11 h12]
  exact same (kill k) (kill_cur k)

theorem table_invariant_syscall (m : Machine) (esp : Nat) (k : Kernel)
    (hinv : table_invariant k.cur) (hlo : 2 ≤ k.cur.fd) (hhi : k.cur.fd < INT_MAX) :
    table_invariant (syscall_handler m esp k).kernel.cur ∧
      2 ≤ (syscall_handler m esp k).kernel.cur.fd := by
  rcases handler_table_cases m esp k with ⟨hf, hc⟩ | ⟨name, h⟩ | ⟨fd, h⟩
  · unfold table_invariant at *
    rw [hf, hc]
    exact ⟨hinv, hlo⟩
  · rw [h]
    exact table_invariant_open m name k hinv hlo hhi
  · rw [h]
    have := table_invariant_close fd k hinv
    exact ⟨this.1, by rw [this.2]; exact hlo⟩

theorem table_invariant_reached (t : Thread) (h : ReachedBelow INT_MAX t) :
    table_invariant t ∧ 2 ≤ t.fd := by
  induction h with
  | fresh name => exact ⟨by simp [table_invariant, ascending, fresh_thread], le_refl _⟩
  | syscall m esp k _ hlt ih => exact table_invariant_syscall m esp k ih.1 ih.2 hlt

/-! ## Reaching the end of the counter -/

theorem sample_open_step (c : Int) (p : Thread) (eax : Nat) (tr : List Event)
    (hlo : 2 ≤ c) (hhi : c < INT_MAX) :
    (syscall_handler (sample_machine 6 0x1100 0 0) 0x1000
      ⟨⟨"main", [], c, [], 0⟩, p, eax, tr⟩).kernel.cur =
      ⟨"main", [⟨77, c + 1⟩], c + 1, [], 0⟩ := by
  have hw : wrap_int (c + 1) = c + 1 := by
    apply wrap_int_of_range
    · unfold INT_MIN; omega
    · omega
  rw [handler_open _ _ _ (by decide) (by decide)]
  have e1 : valid (sample_machine 6 0x1100 0 0) (0x1000 + 4) = true := by decide
  have e2 : valid (sample_machine 6 0x1100 0 0)
      (load (sample_machine 6 0x1100 0 0) (0x1000 + 4)) = true := by decide
  have e3 : ¬ load (sample_machine 6 0x1100 0 0) (0x1000 + 4) = 0 := by decide
  have e4 : (sample_machine 6 0x1100 0 0).filesys_open
      (load (sample_machine 6 0x1100 0 0) (0x1000 + 4)) = some 77 := by decide
  simp only [e1, e2, e3, Bool.not_true, Bool.or_self, Bool.false_eq_true, if_false]
  rw [set_eax_cur, open_file_some _ _ _ 77 e4]
  simp only [Step.kernel, Kernel.set_files, Kernel.log, hw, List.nil_append]

theorem sample_close_step (c : Int) (p : Thread) (eax : Nat) (tr : List Event)
    (hlo : 2 ≤ c) (hhi : c ≤ INT_MAX) :
    (syscall_handler (sample_machine 12 c.toNat 0 0) 0x1000
      ⟨⟨"main", [⟨77, c⟩], c, [], 0⟩, p, eax, tr⟩).kernel.cur =
      ⟨"main", [], c, [], 0⟩ := by
  have hfd : to_int (load (sample_machine 12 c.toNat 0 0) (0x1000 + 4)) = c := by
    simp only [load, sample_machine]
    norm_num
    unfold to_int wrap_int
    unfold INT_MAX at hhi
    omega
  have e0 : valid (sample_machine 12 c.toNat 0 0) 0x1000 = true := by
    simp [valid, is_user_vaddr, PHYS_BASE, sample_machine]
  have eop : to_int (load (sample_machine 12 c.toNat 0 0) 0x1000) = SYS_CLOSE := by
    simp [load, sample_machine, to_int, wrap_int, SYS_CLOSE]
  rw [handler_close _ _ _ e0 eop]
  have e1 : valid (sample_machine 12 c.toNat 0 0) (0x1000 + 4) = true := by
    simp [valid, is_user_vaddr, PHYS_BASE, sample_machine]
  simp only [e1, Bool.not_true, Bool.false_eq_true, if_false, hfd]
  have hg : get_file c [⟨77, c⟩] = some ⟨77, c⟩ :=
    get_file_of_mem c _ (by simp [ascending]) ⟨77, c⟩ (by simp) rfl (by omega)
  simp [close_file, hg, Step.kernel, Kernel.set_files, Kernel.log]

theorem empty_table_reached (n : Nat) :
    (2 : Int) + n < INT_MAX → ReachedBelow INT_MAX ⟨"main", [], 2 + n, [], 0⟩ := by
  induction n with
  | zero =>
    intro _
    exact ReachedBelow.fresh "main"
  | succ n ih =>
    intro h
    have hn : (2 : Int) + n < INT_MAX := by push_cast at h; omega
    have hopen := ReachedBelow.syscall (sample_machine 6 0x1100 0 0) 0x1000
      ⟨⟨"main", [], 2 + n, [], 0⟩, fresh_thread "init", 0, []⟩ (ih hn) hn
    rw [sample_open_step _ _ _ _ (by omega) hn] at hopen
    have hclose := ReachedBelow.syscall (sample_machine 12 ((2 : Int) + n + 1).toNat 0 0) 0x1000
      ⟨⟨"main", [⟨77, 2 + n + 1⟩], 2 + n + 1, [], 0⟩, fresh_thread "init", 0, []⟩ hopen
      (by show (2 : Int) + n + 1 < INT_MAX; push_cast at h; omega)
    rw [sample_close_step _ _ _ _ (by omega) (by push_cast at h; omega)] at hclose
    have e : (2 : Int) + (n + 1 : Nat) = 2 + n + 1 := by push_cast; ring
    rw [e]
    exact hclose

theorem full_counter_reached : ReachedBelow INT_MAX full_counter_thread := by
  have h := empty_table_reached 2147483644 (by decide)
  have hopen := ReachedBelow.syscall (sample_machine 6 0x1100 0 0) 0x1000
    ⟨⟨"main", [], 2 + (2147483644 : Nat), [], 0⟩, fresh_thread "init", 0, []⟩ h (by decide)
  rw [sample_open_step _ _ _ _ (by decide) (by decide)] at hopen
  exact hopen

/-! ## The invariant along executions -/

/-- C5, as stated, fails at the end of the counter. The thread with the one
open descriptor `INT_MAX` and the counter at `INT_MAX` is reached from a fresh
process by system calls (each started below `INT_MAX`) and satisfies the
invariant; the next successful `open` increments the counter past `INT_MAX`,
the wrapped value `INT_MIN` is appended behind the handle `INT_MAX`, and the
invariant is lost. No value of an `int` could keep it: every `v` up to
`INT_MAX` appended behind the handle `INT_MAX` breaks the ascending order. -/
theorem table_invariant_lost_at_int_max :
    ReachedBelow INT_MAX full_counter_thread ∧
    table_invariant full_counter_thread ∧
    (syscall_handler (sample_machine 6 0x1200 0 0) 0x1000
      ⟨full_counter_thread, fresh_thread "init", 0, []⟩).kernel.cur =
      ⟨"main", [⟨77, INT_MAX⟩, ⟨78, INT_MIN⟩], INT_MIN, [], 0⟩ ∧
    ¬ table_invariant (syscall_handler (sample_machine 6 0x1200 0 0) 0x1000
      ⟨full_counter_thread, fresh_thread "init", 0, []⟩).kernel.cur ∧
    (∀ v : Int, v ≤ INT_MAX →
      ¬ table_invariant
        ⟨"main", full_counter_thread.my_opened_files_list ++ [⟨78, v⟩], v, [], 0⟩) := by
  refine ⟨full_counter_reached, by decide, by decide, by decide, ?_⟩
  intro v hv hinv
  have h := hinv.1
  simp only [full_counter_thread, ascending, List.singleton_append, List.pairwise_cons,
    List.mem_singleton, forall_eq] at h
  omega

/-- C5, amended: the descriptor-table invariant (handles strictly ascending in
list order, every handle greater than 1, every handle at most the counter)
holds in the initial state, the empty table with the counter at 2; every
system call of the dispatcher that starts with the counter at least 2 and
below `INT_MAX` preserves it and keeps the counter at least 2, in particular
`open_file`, which appends at the tail, and `close_file`, which preserves it
from every state; hence it holds in every state reached from the initial one
by system calls that start with the counter below `INT_MAX`. -/
theorem table_invariant_below_int_max :
    (∀ name : String, table_invariant (fresh_thread name) ∧ (fresh_thread name).fd = 2) ∧
    (∀ (m : Machine) (esp : Nat) (k : Kernel),
      table_invariant k.cur → 2 ≤ k.cur.fd → k.cur.fd < INT_MAX →
      table_invariant (syscall_handler m esp k).kernel.cur ∧
        2 ≤ (syscall_handler m esp k).kernel.cur.fd) ∧
    (∀ (m : Machine) (name : Nat) (k : Kernel),
      table_invariant k.cur → 2 ≤ k.cur.fd → k.cur.fd < INT_MAX →
      table_invariant (open_file m name k).kernel.cur) ∧
    (∀ (fd : Int) (k : Kernel),
      table_invariant k.cur → table_invariant (close_file fd k).kernel.cur) ∧
    (∀ t : Thread, ReachedBelow INT_MAX t → table_invariant t) := by
  refine ⟨?_, ?_, ?_, ?_, ?_⟩
  · intro name
    exact ⟨by simp [table_invariant, ascending, fresh_thread], rfl⟩
  · exact fun m esp k hinv hlo hhi => table_invariant_syscall m esp k hinv hlo hhi
  · exact fun m name k hinv hlo hhi => (table_invariant_open m name k hinv hlo hhi).1
  · exact fun fd k hinv => (table_invariant_close fd k hinv).1
  · exact fun t h => (table_invariant_reached t h).1

/-- Witness of C5, amended: with the descriptors 3 and 4 open and the counter
at 4, the invariant holds, and it holds after `open` through the dispatcher,
which appends the descriptor 5. -/
theorem table_invariant_below_int_max_witness :
    table_invariant (sample_kernel.set_files [⟨70, 3⟩, ⟨71, 4⟩] 4).cur ∧
    (2 : Int) ≤ (sample_kernel.set_files [⟨70, 3⟩, ⟨71, 4⟩] 4).cur.fd ∧
    (sample_kernel.set_files [⟨70, 3⟩, ⟨71, 4⟩] 4).cur.fd < INT_MAX ∧
    table_invariant (syscall_handler (sample_machine 6 0x1100 0 0) 0x1000
      (sample_kernel.set_files [⟨70, 3⟩, ⟨71, 4⟩] 4)).kernel.cur ∧
    (syscall_handler (sample_machine 6 0x1100 0 0) 0x1000
      (sample_kernel.set_files [⟨70, 3⟩, ⟨71, 4⟩] 4)).kernel.cur.my_opened_files_list =
      [⟨70, 3⟩, ⟨71, 4⟩, ⟨77, 5⟩] :=
  ⟨by decide, by decide, by decide,
    (table_invariant_below_int_max.2.1 (sample_machine 6 0x1100 0 0) 0x1000
      (sample_kernel.set_files [⟨70, 3⟩, ⟨71, 4⟩] 4) (by decide) (by decide) (by decide)).1,
    by decide⟩

/-! ## Null names and unknown operations -/

/-- C11: the code does not do what the claim says. In the `open` call record
of the first part the argument word is accessible and holds the null pointer,
address 0 is unmapped, and the dispatcher ends the process with status -1 by
the step of `ourExit (-1)`, the return slot unwritten, instead of storing -1
and returning. In general, for an accessible `open` record with a null name,
the check of the name pointer comes before the null test: the process is ended
whenever address 0 is inaccessible, and the null branch (-1 stored, the call
returns, no file-system call, the thread unchanged) is reached only when
address 0 is accessible, as in the machine of the last part. -/
theorem open_null_name_is_killed :
    (¬ inaccessible (sample_machine 6 0 0 0) 0x1000 ∧
      to_int (load (sample_machine 6 0 0 0) 0x1000) = SYS_OPEN ∧
      ¬ inaccessible (sample_machine 6 0 0 0) (0x1000 + 4) ∧
      load (sample_machine 6 0 0 0) (0x1000 + 4) = 0 ∧
      inaccessible (sample_machine 6 0 0 0) 0 ∧
      syscall_handler (sample_machine 6 0 0 0) 0x1000 sample_kernel =
        ourExit (-1) sample_kernel ∧
      (syscall_handler (sample_machine 6 0 0 0) 0x1000 sample_kernel).kernel.eax =
        sample_kernel.eax) ∧
    (∀ (m : Machine) (esp : Nat) (k : Kernel),
      ¬ inaccessible m esp → to_int (load m esp) = SYS_OPEN →
      ¬ inaccessible m (esp + 4) → load m (esp + 4) = 0 →
      (inaccessible m 0 → Killed (syscall_handler m esp k) k) ∧
      (¬ inaccessible m 0 →
        syscall_handler m esp k = .ret () { k with eax := to_uint32 (-1) })) ∧
    syscall_handler
        { sample_machine 6 0 0 0 with mapped := fun a => decide (a < 0x2000) } 0x1000
        sample_kernel =
      .ret () { sample_kernel with eax := 4294967295 } := by
  refine ⟨by decide, ?_, by decide⟩
  intro m esp k h0 hop h1 hnull
  rw [← valid_eq_true_iff] at h0 h1
  rw [handler_open m esp k h0 hop, hnull]
  constructor
  · intro hz
    rw [← valid_eq_false_iff] at hz
    simp only [h1, hz, Bool.not_true, Bool.not_false, Bool.or_true, if_true]
    exact killed_kill k
  · intro hz
    rw [← valid_eq_true_iff] at hz
    simp only [h1, hz, Bool.not_true, Bool.or_self, Bool.false_eq_true, if_false, if_true]

/-- C16: for a `create` call record whose opcode word and two argument words
are accessible and whose name is the null pointer, the dispatcher ends the
process with status -1 by the step of `ourExit (-1)`, through the check of
the name pointer when address 0 is inaccessible and through the null test
otherwise: `filesys_create` is not called, no value is returned and the return
slot keeps its content. -/
theorem create_null_name_terminates (m : Machine) (esp : Nat) (k : Kernel)
    (h0 : ¬ inaccessible m esp) (hop : to_int (load m esp) = SYS_CREATE)
    (h1 : ¬ inaccessible m (esp + 4)) (h2 : ¬ inaccessible m (esp + 8))
    (hnull : load m (esp + 4) = 0) :
    Killed (syscall_handler m esp k) k ∧
    (∀ name size, Event.filesys_create name size ∉
      (syscall_handler m esp k).kernel.trace.drop k.trace.length) ∧
    (syscall_handler m esp k).value = none ∧
    (syscall_handler m esp k).kernel.eax = k.eax := by
  rw [← valid_eq_true_iff] at h0 h1 h2
  have hk : syscall_handler m esp k = kill k := by
    rw [handler_create m esp k h0 hop, hnull]
    cases hz : valid m 0 with
    | false => simp only [h1, h2, Bool.not_true, Bool.not_false, Bool.or_true, if_true]
    | true =>
      simp only [h1, h2, Bool.not_true, Bool.or_self, Bool.false_eq_true, if_false, if_true]
      rfl
  have hkilled : Killed (syscall_handler m esp k) k := by
    rw [hk]; exact killed_kill k
  refine ⟨hkilled, ?_, hkilled.2.1, hkilled.2.2.2.2⟩
  intro name size
  rw [hkilled.2.2.1]
  simp

/-- Witness of C16: `create (NULL, 0)` with address 0 unmapped, and with the
pages below `0x2000` all mapped. -/
theorem create_null_name_terminates_witness :
    ¬ inaccessible (sample_machine 4 0 0 0) 0x1000 ∧
    to_int (load (sample_machine 4 0 0 0) 0x1000) = SYS_CREATE ∧
    load (sample_machine 4 0 0 0) (0x1000 + 4) = 0 ∧
    Killed (syscall_handler (sample_machine 4 0 0 0) 0x1000 sample_kernel) sample_kernel ∧
    Killed
      (syscall_handler
        { sample_machine 4 0 0 0 with mapped := fun a => decide (a < 0x2000) } 0x1000
        sample_kernel) sample_kernel :=
  ⟨by decide, by decide, by decide,
    (create_null_name_terminates (sample_machine 4 0 0 0) 0x1000 sample_kernel
      (by decide) (by decide) (by decide) (by decide) (by decide)).1,
    (create_null_name_terminates
      { sample_machine 4 0 0 0 with mapped := fun a => decide (a < 0x2000) } 0x1000
      sample_kernel (by decide) (by decide) (by decide) (by decide) (by decide)).1⟩

/-- C17: when the opcode word is accessible and holds a number that is none of
the thirteen operations of the catalog, the dispatcher ends the process with
status -1 by the step of `ourExit (-1)`: the status line and `thread_exit` are
the only calls, no value is returned, and the descriptor table and the counter
are unchanged. -/
theorem unknown_operation_terminates (m : Machine) (esp : Nat) (k : Kernel)
    (h0 : ¬ inaccessible m esp) (hop : ∀ op ∈ catalog, to_int (load m esp) ≠ op.nr) :
    Killed (syscall_handler m esp k) k ∧
    (syscall_handler m esp k).kernel.cur.my_opened_files_list = k.cur.my_opened_files_list ∧
    (syscall_handler m esp k).kernel.cur.fd = k.cur.fd := by
  rw [← valid_eq_true_iff] at h0
  have hk : syscall_handler m esp k = kill k :=
    handler_default m esp k h0
      (hop ⟨SYS_HALT, 0, none⟩ (by simp [catalog]))
      (hop ⟨SYS_EXIT, 1, none⟩ (by simp [catalog]))
      (hop ⟨SYS_EXEC, 1, some 1⟩ (by simp [catalog]))
      (hop ⟨SYS_WAIT, 1, none⟩ (by simp [catalog]))
      (hop ⟨SYS_CREATE, 2, some 1⟩ (by simp [catalog]))
      (hop ⟨SYS_REMOVE, 1, some 1⟩ (by simp [catalog]))
      (hop ⟨SYS_OPEN, 1, some 1⟩ (by simp [catalog]))
      (hop ⟨SYS_FILESIZE, 1, none⟩ (by simp [catalog]))
      (hop ⟨SYS_READ, 3, some 2⟩ (by simp [catalog]))
      (hop ⟨SYS_WRITE, 3, some 2⟩ (by simp [catalog]))
      (hop ⟨SYS_SEEK, 2, none⟩ (by simp [catalog]))
      (hop ⟨SYS_TELL, 1, none⟩ (by simp [catalog]))
      (hop ⟨SYS_CLOSE, 1, none⟩ (by simp [catalog]))
  have hkilled : Killed (syscall_handler m esp k) k := by
    rw [hk]; exact killed_kill k
  exact ⟨hkilled, by rw [hkilled.2.2.2.1], by rw [hkilled.2.2.2.1]⟩

/-- Witness of C17: the operation codes 13 and -1. -/
theorem unknown_operation_terminates_witness :
    ¬ inaccessible (sample_machine 13 0 0 0) 0x1000 ∧
    (∀ op ∈ catalog, to_int (load (sample_machine 13 0 0 0) 0x1000) ≠ op.nr) ∧
    Killed (syscall_handler (sample_machine 13 0 0 0) 0x1000 sample_kernel) sample_kernel ∧
    Killed (syscall_handler (sample_machine 4294967295 0 0 0) 0x1000 sample_kernel)
      sample_kernel :=
  ⟨by decide, by decide,
    (unknown_operation_terminates (sample_machine 13 0 0 0) 0x1000 sample_kernel
      (by decide) (by decide)).1,
    (unknown_operation_terminates (sample_machine 4294967295 0 0 0) 0x1000 sample_kernel
      (by decide) (by decide)).1⟩

/-! ## Spawning and leaving -/

/-- C12: `execute` calls `process_execute` once and looks the returned
identifier up. When the spawn failed (the identifier is `TID_ERROR`) it returns
-1, and, no thread record carrying the error identifier, the children list and
the rest of the thread are unchanged; whenever the lookup finds no record it
returns -1 with the thread unchanged; when the lookup finds the record `t` it
returns the new identifier and the children list is the old one with `t`
appended at the end, nothing else in the thread changing. The dispatcher, with
the record and the command line validated, stores that result in the return
slot. -/
theorem execute_registers_child (m : Machine) (cmd_line : Nat) (k : Kernel) :
    (m.process_execute cmd_line = TID_ERROR → (execute m cmd_line k).value = some (-1)) ∧
    (m.process_execute cmd_line = TID_ERROR →
      m.get_process_with_specific_tid TID_ERROR = none →
      execute m cmd_line k = .ret (-1) (k.log (.process_execute cmd_line)) ∧
      (execute m cmd_line k).kernel.cur = k.cur) ∧
    (m.get_process_with_specific_tid (m.process_execute cmd_line) = none →
      execute m cmd_line k = .ret (-1) (k.log (.process_execute cmd_line)) ∧
      (execute m cmd_line k).kernel.cur = k.cur) ∧
    (∀ t, m.get_process_with_specific_tid (m.process_execute cmd_line) = some t →
      (execute m cmd_line k).value = some (m.process_execute cmd_line) ∧
      (execute m cmd_line k).kernel.cur =
        { k.cur with children_list := k.cur.children_list ++ [t] } ∧
      (execute m cmd_line k).kernel.trace = k.trace ++ [.process_execute cmd_line] ∧
      (execute m cmd_line k).kernel.parent = k.parent) ∧
    (∀ esp, ¬ inaccessible m esp → to_int (load m esp) = SYS_EXEC →
      ¬ inaccessible m (esp + 4) → ¬ inaccessible m (load m (esp + 4)) →
      load m (esp + 4) = cmd_line →
      syscall_handler m esp k = set_eax to_uint32 (execute m cmd_line k)) := by
  have hnone : m.get_process_with_specific_tid (m.process_execute cmd_line) = none →
      execute m cmd_line k = .ret (-1) (k.log (.process_execute cmd_line)) := by
    intro h
    simp only [execute, h]
  refine ⟨?_, ?_, ?_, ?_, ?_⟩
  · intro hfail
    cases hl : m.get_process_with_specific_tid (m.process_execute cmd_line) with
    | none => rw [hnone hl]; rfl
    | some t =>
      simp only [execute, hl, Step.value]
      rw [hfail]
      rfl
  · intro hfail hcontract
    rw [← hfail] at hcontract
    rw [hnone hcontract]
    exact ⟨rfl, rfl⟩
  · intro hl
    rw [hnone hl]
    exact ⟨rfl, rfl⟩
  · intro t hl
    simp [execute, hl, Step.value, Step.kernel, Kernel.log]
  · intro esp h0 hop h1 h2 hcmd
    subst hcmd
    rw [← valid_eq_true_iff] at h0 h1 h2
    rw [handler_exec m esp k h0 hop]
    simp only [h1, h2, Bool.not_true, Bool.or_self, Bool.false_eq_true, if_false]

/-- Witness of C12: a spawn that yields the process 4 with the record 9, and a
spawn that fails. -/
theorem execute_registers_child_witness :
    (sample_machine 2 0x1100 0 0).get_process_with_specific_tid
      ((sample_machine 2 0x1100 0 0).process_execute 0x1100) = some 9 ∧
    (execute (sample_machine 2 0x1100 0 0) 0x1100 sample_kernel).value = some 4 ∧
    (execute (sample_machine 2 0x1100 0 0) 0x1100 sample_kernel).kernel.cur.children_list =
      [9] ∧
    syscall_handler (sample_machine 2 0x1100 0 0) 0x1000 sample_kernel =
      .ret () { sample_kernel with
        cur := { sample_kernel.cur with children_list := [9] }
        eax := 4, trace := [.process_execute 0x1100] } ∧
    execute
      { sample_machine 2 0x1100 0 0 with
        process_execute := fun _ => TID_ERROR
        get_process_with_specific_tid := fun _ => none } 0x1100 sample_kernel =
      .ret (-1) (sample_kernel.log (.process_execute 0x1100)) :=
  ⟨by decide,
    ((execute_registers_child (sample_machine 2 0x1100 0 0) 0x1100 sample_kernel).2.2.2.1 9
      (by decide)).1,
    by decide, by decide,
    ((execute_registers_child
      { sample_machine 2 0x1100 0 0 with
        process_execute := fun _ => TID_ERROR
        get_process_with_specific_tid := fun _ => none } 0x1100 sample_kernel).2.1
      rfl rfl).1⟩

/-- C13: `ourExit (status)` reports the status line with the name of the
process and the status, stores the status in `last_child_status` of the parent
record and changes no other field of that record, leaves the running thread
and the return slot as they are, and ends in `thread_exit` without returning a
value; the `exit` call of the dispatcher is this step with the status of the
argument word. A parent whose `process_wait` reads `last_child_status` then
obtains that status, 7 after `exit (7)`. -/
theorem exit_publishes_status (m : Machine) (k : Kernel) (status : Int) :
    (ourExit status k : Step Unit) =
      .exit status
        { k with
          parent := { k.parent with last_child_status := status }
          trace := k.trace ++ [.printf_exit k.cur.name status, .thread_exit] } ∧
    (ourExit status k : Step Unit).value = none ∧
    (ourExit status k : Step Unit).kernel.parent.last_child_status = status ∧
    (ourExit status k : Step Unit).kernel.parent =
      { k.parent with last_child_status := status } ∧
    (ourExit status k : Step Unit).kernel.cur = k.cur ∧
    (ourExit status k : Step Unit).kernel.eax = k.eax ∧
    (∀ esp, ¬ inaccessible m esp → to_int (load m esp) = SYS_EXIT →
      ¬ inaccessible m (esp + 4) → to_int (load m (esp + 4)) = status →
      syscall_handler m esp k = ourExit status k) ∧
    (∀ (m2 : Machine) (pid : Int) (kp : Kernel),
      kp.cur = (ourExit status k : Step Unit).kernel.parent →
      m2.process_wait pid = process_wait_reads kp.cur →
      (wait m2 pid kp).value = some status) := by
  refine ⟨rfl, rfl, rfl, rfl, rfl, rfl, ?_, ?_⟩
  · intro esp h0 hop h1 hst
    rw [← valid_eq_true_iff] at h0 h1
    rw [handler_exit m esp k h0 hop]
    simp only [h1, Bool.not_true, Bool.false_eq_true, if_false, hst]
  · intro m2 pid kp hcur hwait
    simp only [wait, Step.value, hwait, process_wait_reads, hcur]
    rfl

/-- Witness of C13: `exit (7)` of the process `main`. -/
theorem exit_publishes_status_witness :
    ¬ inaccessible (sample_machine 1 7 0 0) 0x1000 ∧
    to_int (load (sample_machine 1 7 0 0) 0x1000) = SYS_EXIT ∧
    syscall_handler (sample_machine 1 7 0 0) 0x1000 sample_kernel =
      .exit 7
        { sample_kernel with
          parent := { sample_kernel.parent with last_child_status := 7 }
          trace := [.printf_exit "main" 7, .thread_exit] } ∧
    (wait { sample_machine 3 4 0 0 with process_wait := fun _ => 7 } 4
      ⟨(ourExit 7 sample_kernel : Step Unit).kernel.parent, fresh_thread "boot", 0, []⟩).value =
      some 7 :=
  ⟨by decide, by decide,
    ((exit_publishes_status (sample_machine 1 7 0 0) sample_kernel 7).2.2.2.2.2.2.1 0x1000
      (by decide) (by decide) (by decide) (by decide)).trans (by decide),
    (exit_publishes_status (sample_machine 1 7 0 0) sample_kernel 7).2.2.2.2.2.2.2
      { sample_machine 3 4 0 0 with process_wait := fun _ => 7 } 4
      ⟨(ourExit 7 sample_kernel : Step Unit).kernel.parent, fresh_thread "boot", 0, []⟩
      rfl (by decide)⟩

/-! ## Descriptors at the end of the process -/

theorem read_helper_mapped (m : Machine) (n : Nat) :
    ∀ buffer j : Nat, buffer < 4294967296 →
      (∀ i, i < n → m.mapped ((buffer + i) % 4294967296) = true) →
      read_helper m buffer n j =
        ((List.range n).flatMap fun i =>
          [Event.input_getc,
            Event.store_byte ((buffer + i) % 4294967296) (m.input_getc (j + i) % 256)],
          none) := by
  induction n with
  | zero =>
    intro buffer j _ _
    simp [read_helper]
  | succ n ih =>
    intro buffer j hb hmap
    have h0 : (buffer + 0) % 4294967296 = buffer := by
      rw [Nat.add_zero]; exact Nat.mod_eq_of_lt hb
    have hm0 : m.mapped buffer = true := by
      have := hmap 0 (Nat.succ_pos n)
      rwa [h0] at this
    have hrest : ∀ i, i < n →
        m.mapped (((buffer + 1) % 4294967296 + i) % 4294967296) = true := by
      intro i hi
      have := hmap (i + 1) (Nat.succ_lt_succ hi)
      have ha : ((buffer + 1) % 4294967296 + i) % 4294967296 =
          (buffer + (i + 1)) % 4294967296 := by omega
      rwa [ha]
    rw [read_helper, if_pos hm0,
      ih ((buffer + 1) % 4294967296) (j + 1) (Nat.mod_lt _ (by norm_num)) hrest,
      List.range_succ_eq_map, List.flatMap_cons, List.flatMap_map]
    rw [h0, Nat.add_zero]
    congr 1
    congr 1
    apply List.flatMap_congr
    intro i _
    have ha : ((buffer + 1) % 4294967296 + i) % 4294967296 =
        (buffer + i.succ) % 4294967296 := by
      simp only [Nat.succ_eq_add_one]; omega
    have hj : j + 1 + i = j + i.succ := by
      simp only [Nat.succ_eq_add_one]; omega
    simp only [Function.comp, ha, hj]

theorem read_helper_fault (m : Machine) (c : Nat) :
    ∀ buffer j n : Nat, buffer < 4294967296 → c < n →
      (∀ i, i < c → m.mapped ((buffer + i) % 4294967296) = true) →
      m.mapped ((buffer + c) % 4294967296) = false →
      read_helper m buffer n j =
        (((List.range c).flatMap fun i =>
          [Event.input_getc,
            Event.store_byte ((buffer + i) % 4294967296) (m.input_getc (j + i) % 256)]) ++
          [Event.input_getc],
          some ((buffer + c) % 4294967296)) := by
  induction c with
  | zero =>
    intro buffer j n hb hn _ hbad
    obtain ⟨n, rfl⟩ : ∃ n', n = n' + 1 := ⟨n - 1, by omega⟩
    have h0 : (buffer + 0) % 4294967296 = buffer := by
      rw [Nat.add_zero]; exact Nat.mod_eq_of_lt hb
    rw [h0] at hbad
    rw [read_helper]
    simp [hbad, Nat.mod_eq_of_lt hb]
  | succ c ih =>
    intro buffer j n hb hn hmap hbad
    obtain ⟨n, rfl⟩ : ∃ n', n = n' + 1 := ⟨n - 1, by omega⟩
    have h0 : (buffer + 0) % 4294967296 = buffer := by
      rw [Nat.add_zero]; exact Nat.mod_eq_of_lt hb
    have hm0 : m.mapped buffer = true := by
      have := hmap 0 (Nat.succ_pos c)
      rwa [h0] at this
    have hrest : ∀ i, i < c →
        m.mapped (((buffer + 1) % 4294967296 + i) % 4294967296) = true := by
      intro i hi
      have := hmap (i + 1) (Nat.succ_lt_succ hi)
      have ha : ((buffer + 1) % 4294967296 + i) % 4294967296 =
          (buffer + (i + 1)) % 4294967296 := by omega
      rwa [ha]
    have hbad2 : m.mapped (((buffer + 1) % 4294967296 + c) % 4294967296) = false := by
      have ha : ((buffer + 1) % 4294967296 + c) % 4294967296 =
          (buffer + (c + 1)) % 4294967296 := by omega
      rwa [ha]
    have haddr : ((buffer + 1) % 4294967296 + c) % 4294967296 =
        (buffer + (c + 1)) % 4294967296 := by omega
    have hf : ((List.range c).flatMap fun i =>
        [Event.input_getc,
          Event.store_byte (((buffer + 1) % 4294967296 + i) % 4294967296)
            (m.input_getc (j + 1 + i) % 256)]) =
        (List.range c).flatMap ((fun i =>
          [Event.input_getc,
            Event.store_byte ((buffer + i) % 4294967296) (m.input_getc (j + i) % 256)]) ∘
          Nat.succ) := by
      apply List.flatMap_congr
      intro i _
      have ha : ((buffer + 1) % 4294967296 + i) % 4294967296 =
          (buffer + i.succ) % 4294967296 := by
        simp only [Nat.succ_eq_add_one]; omega
      have hj : j + 1 + i = j + i.succ := by
        simp only [Nat.succ_eq_add_one]; omega
      simp only [Function.comp, ha, hj]
    rw [read_helper, if_pos hm0,
      ih ((buffer + 1) % 4294967296) (j + 1) n (Nat.mod_lt _ (by norm_num)) (by omega) hrest
        hbad2,
      List.range_succ_eq_map, List.flatMap_cons, List.flatMap_map, hf, h0, haddr]
    simp only [Nat.add_zero, List.cons_append, List.nil_append]
    rfl

theorem console_read_events_succ (m : Machine) (buffer n : Nat) :
    console_read_events m buffer (n + 1) =
      console_read_events m buffer n ++
        [Event.input_getc,
          Event.store_byte ((buffer + n) % 4294967296) (m.input_getc n % 256)] := by
  simp [console_read_events, List.range_succ, List.flatMap_append]

theorem stores_append (xs ys : List Event) : stores (xs ++ ys) = stores xs ++ stores ys := by
  induction xs with
  | nil => rfl
  | cons e rest ih => cases e <;> simp [stores, ih]

theorem console_read_events_count (m : Machine) (buffer n : Nat) :
    (console_read_events m buffer n).count Event.input_getc = n := by
  induction n with
  | zero => rfl
  | succ n ih =>
    rw [console_read_events_succ, List.count_append, ih]
    simp [List.count_cons]

theorem console_read_events_stores (m : Machine) (buffer n : Nat) :
    stores (console_read_events m buffer n) =
      (List.range n).map fun i => ((buffer + i) % 4294967296, m.input_getc i % 256) := by
  induction n with
  | zero => rfl
  | succ n ih =>
    rw [console_read_events_succ, stores_append, ih, List.range_succ, List.map_append]
    rfl

/-- C15, as stated, fails: in `read (0, 0x1fff, 2)` the first byte of the
buffer is the last byte of the mapped page and the second byte, at `0x2000`,
is unmapped. The call record passes the checks of the dispatcher; `read_helper`
fetches a key and stores it at `0x1fff`, fetches the second key, and the store
to `0x2000` page-faults: `read` does not return 2, one byte is stored and
`input_getc` was called twice. -/
theorem console_read_faults :
    ¬ inaccessible (sample_machine 8 0 0x1fff 2) 0x1fff ∧
    (sample_machine 8 0 0x1fff 2).mapped (0x1fff + 1) = false ∧
    read (sample_machine 8 0 0x1fff 2) 0 0x1fff 2 sample_kernel =
      .fault 0x2000
        { sample_kernel with
          trace := [.input_getc, .store_byte 0x1fff 65, .input_getc] } ∧
    syscall_handler (sample_machine 8 0 0x1fff 2) 0x1000 sample_kernel =
      .fault 0x2000
        { sample_kernel with
          trace := [.input_getc, .store_byte 0x1fff 65, .input_getc] } := by
  decide

/-- C15, amended: for every buffer address of the 32-bit address space and
every size `n`, 0 included, such that the `n` bytes of the buffer are mapped,
`read (0, buffer, n)` returns `n` (the loop of `read_helper` runs `n` times and
ends) after the calls and stores of the console read: for each `i` below `n`,
in order, one `input_getc` and the store of its key at `buffer + i`. So
`input_getc` is called exactly `n` times, the bytes stored are the `n` keys at
the addresses `buffer + i` (without wrap when the buffer ends inside the
address space), every event is one of these (no file-system call, no other
store), and the thread is unchanged; the dispatcher stores `n` in the return
slot. When the byte `c` of the buffer is the first that is not mapped, the
store to it page-faults after `c` bytes were stored and `c + 1` keys fetched,
and `read` does not return. -/
theorem console_read (m : Machine) (k : Kernel) (buffer n : Nat)
    (hb : buffer < 4294967296)
    (hmap : ∀ i, i < n → m.mapped ((buffer + i) % 4294967296) = true) :
    read m 0 buffer n k =
      .ret n { k with trace := k.trace ++ console_read_events m buffer n } ∧
    (console_read_events m buffer n).count Event.input_getc = n ∧
    stores (console_read_events m buffer n) =
      ((List.range n).map fun i => ((buffer + i) % 4294967296, m.input_getc i % 256)) ∧
    (buffer + n ≤ 4294967296 →
      stores (console_read_events m buffer n) =
        (List.range n).map fun i => (buffer + i, m.input_getc i % 256)) ∧
    (∀ e ∈ console_read_events m buffer n,
      e = Event.input_getc ∨
        ∃ i, i < n ∧ e = Event.store_byte ((buffer + i) % 4294967296) (m.input_getc i % 256)) ∧
    (read m 0 buffer n k).kernel.cur = k.cur ∧
    (∀ esp, ¬ inaccessible m esp → to_int (load m esp) = SYS_READ →
      ¬ inaccessible m (esp + 4) → ¬ inaccessible m (esp + 8) →
      ¬ inaccessible m (esp + 12) → ¬ inaccessible m (load m (esp + 8)) →
      to_int (load m (esp + 4)) = 0 → load m (esp + 8) = buffer → load m (esp + 12) = n →
      syscall_handler m esp k =
        .ret () { k with eax := n, trace := k.trace ++ console_read_events m buffer n }) ∧
    (∀ (m2 : Machine) (c size : Nat), c < size →
      (∀ i, i < c → m2.mapped ((buffer + i) % 4294967296) = true) →
      m2.mapped ((buffer + c) % 4294967296) = false →
      read m2 0 buffer size k =
        .fault ((buffer + c) % 4294967296)
          { k with
            trace := k.trace ++ (console_read_events m2 buffer c ++ [Event.input_getc]) }) := by
  have hr : read m 0 buffer n k =
      .ret n { k with trace := k.trace ++ console_read_events m buffer n } := by
    have h := read_helper_mapped m n buffer 0 hb hmap
    simp only [Nat.zero_add] at h
    simp only [read, if_true, h, console_read_events]
  refine ⟨hr, console_read_events_count m buffer n, console_read_events_stores m buffer n,
    ?_, ?_, by rw [hr]; rfl, ?_, ?_⟩
  · intro hfit
    rw [console_read_events_stores]
    apply List.map_congr_left
    intro i hi
    have hi := List.mem_range.mp hi
    rw [Nat.mod_eq_of_lt (by omega)]
  · intro e he
    simp only [console_read_events, List.mem_flatMap, List.mem_range, List.mem_cons,
      List.mem_singleton, List.not_mem_nil, or_false] at he
    obtain ⟨i, hi, h | h⟩ := he
    · exact Or.inl h
    · exact Or.inr ⟨i, hi, h⟩
  · intro esp h0 hop h1 h2 h3 h4 hfd hbuf hn
    subst hbuf
    subst hn
    rw [← valid_eq_true_iff] at h0 h1 h2 h3 h4
    rw [handler_read m esp k h0 hop]
    simp only [h1, h2, h3, h4, Bool.not_true, Bool.or_self, Bool.false_eq_true, if_false, hfd,
      hr]
    rfl
  · intro m2 c size hc hmap2 hbad
    have h := read_helper_fault m2 c buffer 0 size hb hc hmap2 hbad
    simp only [Nat.zero_add] at h
    simp only [read, if_true, h, console_read_events]

/-- Witness of C15, amended: `read (0, 0x1800, 2)` through the dispatcher stores
`A` and `B`, and `read (0, 0x1800, 0)` stores nothing. -/
theorem console_read_witness :
    (0x1800 : Nat) < 4294967296 ∧
    (∀ i, i < 2 → (sample_machine 8 0 0x1800 2).mapped ((0x1800 + i) % 4294967296) = true) ∧
    syscall_handler (sample_machine 8 0 0x1800 2) 0x1000 sample_kernel =
      .ret () { sample_kernel with
        eax := 2
        trace := [.input_getc, .store_byte 0x1800 65, .input_getc, .store_byte 0x1801 66] } ∧
    read (sample_machine 8 0 0x1800 0) 0 0x1800 0 sample_kernel = .ret 0 sample_kernel :=
  ⟨by decide, by decide,
    ((console_read (sample_machine 8 0 0x1800 2) sample_kernel 0x1800 2
      (by decide) (by decide)).2.2.2.2.2.2.1 0x1000 (by decide) (by decide) (by decide)
      (by decide) (by decide) (by decide) (by decide) (by decide) (by decide)).trans
      (by decide),
    (console_read (sample_machine 8 0 0x1800 0) sample_kernel 0x1800 0 (by decide)
      (by decide)).1⟩

/-! ## The table after `open` and after `close` -/

theorem ascending_fd_inj (files : List OpenFile) (hs : ascending files) (x y : OpenFile)
    (hx : x ∈ files) (hy : y ∈ files) (h : x.fd = y.fd) : x = y := by
  have h1 := get_file_scan_of_mem y.fd files hs x hx h
  have h2 := get_file_scan_of_mem y.fd files hs y hy rfl
  rw [h1] at h2
  exact Option.some.inj h2

theorem get_file_append_other (files : List OpenFile) (e : OpenFile) (fd : Int)
    (hs : ascending files) (habove : ∀ x ∈ files, x.fd < e.fd) (hne : fd ≠ e.fd) :
    get_file fd (files ++ [e]) = get_file fd files := by
  have hs2 := ascending_append_above files e hs habove
  cases h : get_file fd files with
  | some x =>
    obtain ⟨hx, hfd, h0⟩ := get_file_some fd files x h
    exact get_file_of_mem fd _ hs2 x (List.mem_append_left _ hx) hfd h0
  | none =>
    cases h2 : get_file fd (files ++ [e]) with
    | none => rfl
    | some y =>
      obtain ⟨hy, hfd, h0⟩ := get_file_some fd _ y h2
      rcases List.mem_append.mp hy with hy | hy
      · rw [get_file_of_mem fd files hs y hy hfd h0] at h
        cases h
      · rw [List.mem_singleton] at hy
        subst hy
        exact absurd hfd.symm hne

/-- C18, as stated, fails at both ends of the counter. With the descriptor
`INT_MAX` open and the counter at `INT_MAX`, a state that satisfies the table
invariant and is reached from a fresh process, a successful `open_file` returns
`INT_MIN`, not the counter plus one, and `get_file` of the returned number
finds nothing. And the invariant does not bound the counter of an empty table
from below: with the counter at 0 the open returns 1, and the `write` that
follows on that number goes to the console, not to the file. -/
theorem open_loses_entry_at_counter_ends :
    (ReachedBelow INT_MAX full_counter_thread ∧
      table_invariant full_counter_thread ∧
      (sample_machine 6 0x1200 0 0).filesys_open 0x1200 = some 78 ∧
      (open_file (sample_machine 6 0x1200 0 0) 0x1200
        ⟨full_counter_thread, fresh_thread "init", 0, []⟩).value = some INT_MIN ∧
      INT_MIN ≠ full_counter_thread.fd + 1 ∧
      get_file INT_MIN
        (open_file (sample_machine 6 0x1200 0 0) 0x1200
          ⟨full_counter_thread, fresh_thread "init", 0, []⟩).kernel.cur.my_opened_files_list =
        none) ∧
    (table_invariant (sample_kernel.set_files [] 0).cur ∧
      (open_file (sample_machine 6 0x1200 0 0) 0x1200 (sample_kernel.set_files [] 0)).value =
        some 1 ∧
      write (sample_machine 9 1 0x1800 2) 1 0x1800 2
          (open_file (sample_machine 6 0x1200 0 0) 0x1200
            (sample_kernel.set_files [] 0)).kernel =
        .ret 2
          ((open_file (sample_machine 6 0x1200 0 0) 0x1200
            (sample_kernel.set_files [] 0)).kernel.log (.putbuf 0x1800 2))) :=
  ⟨⟨full_counter_reached, by decide, by decide, by decide, by decide, by decide⟩,
    by decide, by decide, by decide⟩

/-- C18, amended: in every state that satisfies the table invariant with the
counter at least 2 and below `INT_MAX`, for every name the file system opens,
`open_file` returns the old counter plus one (3 in a fresh process), `get_file`
of the returned number then yields the entry of the file the file system
returned, and `get_file` of every other number yields what it yielded before;
`write`, `seek` and `read` on the returned number, made while the table is the
one the open left, call `file_write`, `file_seek` and `file_read` on that
file. -/
theorem open_then_lookup (m : Machine) (name : Nat) (k : Kernel) (file : Nat)
    (hinv : table_invariant k.cur) (hlo : 2 ≤ k.cur.fd) (hhi : k.cur.fd < INT_MAX)
    (hopen : m.filesys_open name = some file) :
    (open_file m name k).value = some (k.cur.fd + 1) ∧
    get_file (k.cur.fd + 1) (open_file m name k).kernel.cur.my_opened_files_list =
      some ⟨file, k.cur.fd + 1⟩ ∧
    (∀ fd : Int, fd ≠ k.cur.fd + 1 →
      get_file fd (open_file m name k).kernel.cur.my_opened_files_list =
        get_file fd k.cur.my_opened_files_list) ∧
    (∀ (k2 : Kernel) (m2 : Machine) (buffer size : Nat),
      k2.cur.my_opened_files_list = (open_file m name k).kernel.cur.my_opened_files_list →
      write m2 (k.cur.fd + 1) buffer size k2 =
        .ret (to_uint32 (m2.file_write file buffer size))
          (k2.log (.file_write file buffer size))) ∧
    (∀ (k2 : Kernel) (position : Nat),
      k2.cur.my_opened_files_list = (open_file m name k).kernel.cur.my_opened_files_list →
      seek (k.cur.fd + 1) position k2 = .ret () (k2.log (.file_seek file position))) ∧
    (∀ (k2 : Kernel) (m2 : Machine) (buffer size : Nat),
      k2.cur.my_opened_files_list = (open_file m name k).kernel.cur.my_opened_files_list →
      read m2 (k.cur.fd + 1) buffer size k2 =
        .ret (to_uint32 (m2.file_read file buffer size))
          (k2.log (.file_read file buffer size))) := by
  have hw : wrap_int (k.cur.fd + 1) = k.cur.fd + 1 := by
    apply wrap_int_of_range
    · unfold INT_MIN; omega
    · omega
  obtain ⟨hs, _, hc⟩ := hinv
  have habove : ∀ x ∈ k.cur.my_opened_files_list, x.fd < (⟨file, k.cur.fd + 1⟩ : OpenFile).fd := by
    intro x hx
    have := hc x hx
    show x.fd < k.cur.fd + 1
    omega
  have hfiles : (open_file m name k).kernel.cur.my_opened_files_list =
      k.cur.my_opened_files_list ++ [⟨file, k.cur.fd + 1⟩] := by
    rw [open_file_some m name k file hopen, hw]; rfl
  have hfind : get_file (k.cur.fd + 1) (open_file m name k).kernel.cur.my_opened_files_list =
      some ⟨file, k.cur.fd + 1⟩ := by
    rw [hfiles]
    exact get_file_of_mem _ _ (ascending_append_above _ _ hs habove) ⟨file, k.cur.fd + 1⟩
      (List.mem_append_right _ (List.mem_singleton.mpr rfl)) rfl (by omega)
  have h1 : k.cur.fd + 1 ≠ 1 := by omega
  have h0 : k.cur.fd + 1 ≠ 0 := by omega
  refine ⟨?_, hfind, ?_, ?_, ?_, ?_⟩
  · rw [open_file_some m name k file hopen, hw]; rfl
  · intro fd hne
    rw [hfiles]
    exact get_file_append_other _ _ fd hs habove hne
  · intro k2 m2 buffer size hk2
    simp only [write, h1, if_false, hk2, hfind]
  · intro k2 position hk2
    simp only [seek, hk2, hfind]
  · intro k2 m2 buffer size hk2
    simp only [read, h0, if_false, hk2, hfind]

/-- Witness of C18, amended: the first open of a fresh process returns 3 and
`get_file (3)` yields the file 77. -/
theorem open_then_lookup_witness :
    table_invariant sample_kernel.cur ∧ (2 : Int) ≤ sample_kernel.cur.fd ∧
    sample_kernel.cur.fd < INT_MAX ∧
    (sample_machine 6 0x1100 0 0).filesys_open 0x1100 = some 77 ∧
    (open_file (sample_machine 6 0x1100 0 0) 0x1100 sample_kernel).value = some 3 ∧
    get_file 3
      (open_file (sample_machine 6 0x1100 0 0) 0x1100
        sample_kernel).kernel.cur.my_opened_files_list = some ⟨77, 3⟩ :=
  ⟨by decide, by decide, by decide, by decide,
    (open_then_lookup (sample_machine 6 0x1100 0 0) 0x1100 sample_kernel 77
      (by decide) (by decide) (by decide) (by decide)).1,
    (open_then_lookup (sample_machine 6 0x1100 0 0) 0x1100 sample_kernel 77
      (by decide) (by decide) (by decide) (by decide)).2.1⟩

/-- C19: in every state that satisfies the table invariant, for every entry
`e` of the table, `close_file (e.fd)` unlinks `e` and calls `file_close` once,
on the file of `e`: the new table is the old one without `e`, all other
entries in their order, the counter and the rest of the thread are unchanged,
and the trace gains that one call. Afterwards `get_file (e.fd)` finds nothing
and a second `close_file (e.fd)` returns in the state it started from. -/
theorem close_removes_entry (k : Kernel) (e : OpenFile)
    (hinv : table_invariant k.cur) (he : e ∈ k.cur.my_opened_files_list) :
    close_file e.fd k =
      .ret () ((k.set_files (k.cur.my_opened_files_list.erase e) k.cur.fd).log
        (.file_close e.file)) ∧
    (close_file e.fd k).kernel.cur.my_opened_files_list =
      k.cur.my_opened_files_list.filter (fun x => x != e) ∧
    e ∉ (close_file e.fd k).kernel.cur.my_opened_files_list ∧
    (∀ x ∈ k.cur.my_opened_files_list, x ≠ e →
      x ∈ (close_file e.fd k).kernel.cur.my_opened_files_list) ∧
    (close_file e.fd k).kernel.trace = k.trace ++ [.file_close e.file] ∧
    (close_file e.fd k).kernel.cur.fd = k.cur.fd ∧
    (close_file e.fd k).kernel.cur =
      { k.cur with my_opened_files_list := k.cur.my_opened_files_list.erase e } ∧
    get_file e.fd (close_file e.fd k).kernel.cur.my_opened_files_list = none ∧
    close_file e.fd (close_file e.fd k).kernel = .ret () (close_file e.fd k).kernel := by
  obtain ⟨hs, h1, _⟩ := hinv
  have hnodup : k.cur.my_opened_files_list.Nodup :=
    List.Pairwise.imp (fun hab heq => by rw [heq] at hab; exact lt_irrefl _ hab) hs
  have h0 : e.fd ≠ 0 := by
    have := h1 e he
    omega
  have hfind := get_file_of_mem e.fd _ hs e he rfl h0
  have hclose : close_file e.fd k =
      .ret () ((k.set_files (k.cur.my_opened_files_list.erase e) k.cur.fd).log
        (.file_close e.file)) := by
    simp only [close_file, hfind]
  have hfiles : (close_file e.fd k).kernel.cur.my_opened_files_list =
      k.cur.my_opened_files_list.erase e := by
    rw [hclose]; rfl
  have hgone : get_file e.fd (close_file e.fd k).kernel.cur.my_opened_files_list = none := by
    rw [hfiles]
    apply get_file_none_of_absent
    intro x hx hfd
    have hxm := (List.Nodup.mem_erase_iff hnodup).mp hx
    exact hxm.1 (ascending_fd_inj _ hs x e hxm.2 he hfd)
  refine ⟨hclose, ?_, ?_, ?_, ?_, ?_, ?_, hgone, ?_⟩
  · rw [hfiles, List.Nodup.erase_eq_filter hnodup]
  · rw [hfiles]
    exact fun h => ((List.Nodup.mem_erase_iff hnodup).mp h).1 rfl
  · intro x hx hne
    rw [hfiles]
    exact (List.Nodup.mem_erase_iff hnodup).mpr ⟨hne, hx⟩
  · rw [hclose]; rfl
  · rw [hclose]; rfl
  · rw [hclose]; rfl
  · have key : ∀ k2 : Kernel, get_file e.fd k2.cur.my_opened_files_list = none →
        close_file e.fd k2 = .ret () k2 := by
      intro k2 h
      simp only [close_file, h]
    exact key _ hgone

/-- Witness of C19: with the descriptors 3, 4 and 5 open, `close (4)` leaves 3
and 5 in their order and closes the file 71. -/
theorem close_removes_entry_witness :
    table_invariant (sample_kernel.set_files [⟨70, 3⟩, ⟨71, 4⟩, ⟨72, 5⟩] 5).cur ∧
    (⟨71, 4⟩ : OpenFile) ∈
      (sample_kernel.set_files [⟨70, 3⟩, ⟨71, 4⟩, ⟨72, 5⟩] 5).cur.my_opened_files_list ∧
    close_file 4 (sample_kernel.set_files [⟨70, 3⟩, ⟨71, 4⟩, ⟨72, 5⟩] 5) =
      .ret () ((sample_kernel.set_files [⟨70, 3⟩, ⟨72, 5⟩] 5).log (.file_close 71)) ∧
    get_file 4
      (close_file 4
        (sample_kernel.set_files [⟨70, 3⟩, ⟨71, 4⟩, ⟨72, 5⟩] 5)).kernel.cur.my_opened_files_list =
      none :=
  ⟨by decide, by decide,
    (close_removes_entry (sample_kernel.set_files [⟨70, 3⟩, ⟨71, 4⟩, ⟨72, 5⟩] 5) ⟨71, 4⟩
      (by decide) (by decide)).1.trans (by decide),
    (close_removes_entry (sample_kernel.set_files [⟨70, 3⟩, ⟨71, 4⟩, ⟨72, 5⟩] 5) ⟨71, 4⟩
      (by decide) (by decide)).2.2.2.2.2.2.2.1⟩

/-! ## The bytes of a word -/

theorem inaccessible_set_word (m : Machine) (addr w a : Nat) :
    inaccessible (m.set_word addr w) a ↔ inaccessible m a := Iff.rfl

theorem load_set_word_other (m : Machine) (addr w a : Nat) (h : a ≠ addr) :
    load (m.set_word addr w) a = load m a := by
  simp [load, Machine.set_word, h]

/-- Where the four words of the call record are wholly mapped, the dispatcher
with faults is the dispatcher. -/
theorem faulting_eq_handler (m : Machine) (esp : Nat) (k : Kernel)
    (h0 : ¬ word_unmapped m esp) (h1 : ¬ word_unmapped m (esp + 4))
    (h2 : ¬ word_unmapped m (esp + 8)) (h3 : ¬ word_unmapped m (esp + 12)) :
    syscall_handler_faulting m esp k = syscall_handler m esp k := by
  unfold syscall_handler_faulting syscall_handler
  simp only [h0, h1, h2, h3, if_false]
  cases valid m esp <;> cases valid m (esp + 4) <;> cases valid m (esp + 8) <;>
    cases valid m (esp + 12) <;> cases valid m (load m (esp + 4)) <;>
    cases valid m (load m (esp + 8)) <;> simp

theorem faulting_bad_esp (m : Machine) (esp : Nat) (k : Kernel) (h : valid m esp = false) :
    syscall_handler_faulting m esp k = kill k := by
  simp [syscall_handler_faulting, h]

theorem faulting_opcode_fault (m : Machine) (esp : Nat) (k : Kernel)
    (hv : valid m esp = true) (hw : word_unmapped m esp) :
    syscall_handler_faulting m esp k = .fault esp k := by
  simp [syscall_handler_faulting, hv, hw]

theorem faulting_arg_invalid (m : Machine) (esp : Nat) (k : Kernel)
    (hv : valid m esp = true) (hw : ¬ word_unmapped m esp)
    (op : Operation) (hmem : op ∈ catalog) (hop : to_int (load m esp) = op.nr)
    (i : Nat) (hi : i ∈ List.range op.argc) (hbad : valid m (esp + 4 * (i + 1)) = false) :
    syscall_handler_faulting m esp k = kill k := by
  simp only [catalog, List.mem_cons, List.mem_singleton, List.not_mem_nil, or_false] at hmem
  have hi := List.mem_range.mp hi
  unfold syscall_handler_faulting
  simp only [hv, hw, hop, Bool.not_true, Bool.false_eq_true, if_false]
  rcases hmem with rfl | rfl | rfl | rfl | rfl | rfl | rfl | rfl | rfl | rfl | rfl | rfl | rfl
  all_goals
    interval_cases i <;> norm_num at hbad <;>
      simp [hbad, SYS_HALT, SYS_EXIT, SYS_EXEC, SYS_WAIT, SYS_CREATE, SYS_REMOVE, SYS_OPEN,
        SYS_FILESIZE, SYS_READ, SYS_WRITE, SYS_SEEK, SYS_TELL, SYS_CLOSE]

theorem faulting_first_arg_fault (m : Machine) (esp : Nat) (k : Kernel)
    (hv : valid m esp = true) (hw : ¬ word_unmapped m esp)
    (hop : to_int (load m esp) ∈
      [SYS_EXIT, SYS_EXEC, SYS_WAIT, SYS_REMOVE, SYS_OPEN, SYS_FILESIZE, SYS_CLOSE])
    (h1 : valid m (esp + 4) = true) (hw1 : word_unmapped m (esp + 4)) :
    syscall_handler_faulting m esp k = .fault (esp + 4) k := by
  simp only [List.mem_cons, List.mem_singleton, List.not_mem_nil, or_false] at hop
  unfold syscall_handler_faulting
  simp only [hv, hw, h1, hw1, Bool.not_true, Bool.false_eq_true, if_false, if_true]
  rcases hop with h | h | h | h | h | h | h <;>
    simp [h, SYS_HALT, SYS_EXIT, SYS_EXEC, SYS_WAIT, SYS_CREATE, SYS_REMOVE, SYS_OPEN,
      SYS_FILESIZE, SYS_READ, SYS_WRITE, SYS_SEEK, SYS_TELL, SYS_CLOSE]

theorem word_unmapped_set_word (m : Machine) (addr w a : Nat) :
    word_unmapped (m.set_word addr w) a ↔ word_unmapped m a := Iff.rfl

/-- C20, as stated, fails: a word is accepted when its first byte is
accessible. In the `exit` record at `0x1ffb` the opcode word is wholly mapped,
the argument word starts on the last mapped byte `0x1fff` and its other three
bytes are unmapped: the check of the dispatcher passes and the dispatcher
reads the word, a read that page-faults; the dispatcher has not ended the
process, no status line and no `thread_exit`. In the record at `0x1ffe` the
opcode word itself has two unmapped bytes and is read the same way. -/
theorem partly_mapped_word_is_read :
    (¬ word_inaccessible (edge_machine 0x1ffb 1 7) 0x1ffb ∧
      to_int (load (edge_machine 0x1ffb 1 7) 0x1ffb) = SYS_EXIT ∧
      ¬ inaccessible (edge_machine 0x1ffb 1 7) (0x1ffb + 4) ∧
      word_inaccessible (edge_machine 0x1ffb 1 7) (0x1ffb + 4) ∧
      valid (edge_machine 0x1ffb 1 7) (0x1ffb + 4) = true ∧
      syscall_handler_faulting (edge_machine 0x1ffb 1 7) 0x1ffb sample_kernel =
        .fault 0x1fff sample_kernel) ∧
    (¬ inaccessible (edge_machine 0x1ffe 0 0) 0x1ffe ∧
      word_inaccessible (edge_machine 0x1ffe 0 0) 0x1ffe ∧
      valid (edge_machine 0x1ffe 0 0) 0x1ffe = true ∧
      syscall_handler_faulting (edge_machine 0x1ffe 0 0) 0x1ffe sample_kernel =
        .fault 0x1ffe sample_kernel) := by
  decide

/-- C20, amended: the dispatcher checks the first byte of a scalar region and
no other. When the address of the opcode word is at or above the user/kernel
split or unmapped, or, the opcode word being wholly mapped, the address of an
argument word of the operation it names is, the process is ended with status
-1 by the step of `ourExit (-1)` and the word is not read: the same holds
whatever the word contains. A word whose first byte is accessible is accepted:
the opcode word is read, and so is the argument word of `exit`, `exec`, `wait`,
`remove`, `open`, `filesize` and `close`, and the read page-faults when another
byte of the word is unmapped. -/
theorem first_byte_checked (m : Machine) (esp : Nat) (k : Kernel) :
    (inaccessible m esp →
      ∀ w, Killed (syscall_handler_faulting (m.set_word esp w) esp k) k) ∧
    (∀ op ∈ catalog, ∀ i ∈ List.range op.argc,
      ¬ word_unmapped m esp → to_int (load m esp) = op.nr →
      inaccessible m (esp + 4 * (i + 1)) →
      ∀ w, Killed (syscall_handler_faulting (m.set_word (esp + 4 * (i + 1)) w) esp k) k) ∧
    (¬ inaccessible m esp → word_unmapped m esp →
      syscall_handler_faulting m esp k = .fault esp k) ∧
    (¬ inaccessible m esp → ¬ word_unmapped m esp →
      to_int (load m esp) ∈
        [SYS_EXIT, SYS_EXEC, SYS_WAIT, SYS_REMOVE, SYS_OPEN, SYS_FILESIZE, SYS_CLOSE] →
      ¬ inaccessible m (esp + 4) → word_unmapped m (esp + 4) →
      syscall_handler_faulting m esp k = .fault (esp + 4) k) := by
  refine ⟨?_, ?_, ?_, ?_⟩
  · intro h w
    have hv : valid (m.set_word esp w) esp = false :=
      (valid_eq_false_iff _ _).mpr ((inaccessible_set_word m esp w esp).mpr h)
    rw [faulting_bad_esp _ esp k hv]
    exact killed_kill k
  · intro op hop i hi hw hnr hbad w
    have hload : load (m.set_word (esp + 4 * (i + 1)) w) esp = load m esp :=
      load_set_word_other m _ w esp (by omega)
    have hbad2 : valid (m.set_word (esp + 4 * (i + 1)) w) (esp + 4 * (i + 1)) = false :=
      (valid_eq_false_iff _ _).mpr ((inaccessible_set_word m _ w _).mpr hbad)
    cases hv : valid (m.set_word (esp + 4 * (i + 1)) w) esp with
    | false =>
      rw [faulting_bad_esp _ esp k hv]
      exact killed_kill k
    | true =>
      rw [faulting_arg_invalid _ esp k hv
        (fun h => hw ((word_unmapped_set_word m _ w esp).mp h)) op hop
        (by rw [hload]; exact hnr) i hi hbad2]
      exact killed_kill k
  · intro h0 hw
    exact faulting_opcode_fault m esp k ((valid_eq_true_iff _ _).mpr h0) hw
  · intro h0 hw hop h1 hw1
    exact faulting_first_arg_fault m esp k ((valid_eq_true_iff _ _).mpr h0) hw hop
      ((valid_eq_true_iff _ _).mpr h1) hw1

/-- Witness of C20, amended: a call record at `PHYS_BASE`; a `seek` record
whose second argument word starts in the unmapped page at `0x2000`; and a
`close` record whose argument word starts on the last mapped byte. -/
theorem first_byte_checked_witness :
    inaccessible (sample_machine 1 7 0 0) 0xc0000000 ∧
    Killed
      (syscall_handler_faulting ((sample_machine 1 7 0 0).set_word 0xc0000000 5) 0xc0000000
        sample_kernel) sample_kernel ∧
    ¬ word_unmapped (edge_machine 0x1ff8 10 3) 0x1ff8 ∧
    inaccessible (edge_machine 0x1ff8 10 3) (0x1ff8 + 4 * (1 + 1)) ∧
    Killed
      (syscall_handler_faulting ((edge_machine 0x1ff8 10 3).set_word (0x1ff8 + 4 * (1 + 1)) 5)
        0x1ff8 sample_kernel) sample_kernel ∧
    word_unmapped (edge_machine 0x1ffb 12 3) (0x1ffb + 4) ∧
    syscall_handler_faulting (edge_machine 0x1ffb 12 3) 0x1ffb sample_kernel =
      .fault (0x1ffb + 4) sample_kernel :=
  ⟨by decide,
    (first_byte_checked (sample_machine 1 7 0 0) 0xc0000000 sample_kernel).1 (by decide) 5,
    by decide, by decide,
    (first_byte_checked (edge_machine 0x1ff8 10 3) 0x1ff8 sample_kernel).2.1
      ⟨SYS_SEEK, 2, none⟩ (by decide) 1 (by decide) (by decide) (by decide) (by decide) 5,
    by decide,
    (first_byte_checked (edge_machine 0x1ffb 12 3) 0x1ffb sample_kernel).2.2.2 (by decide)
      (by decide) (by decide) (by decide) (by decide)⟩

end Syscall
